import Mathlib

/-!
Verification development for the image-to-pattern conversion pipeline of the
`braceyourself` repository.

The embedded code comes from three places (the first two hold the same
functions, once as a module and once in the legacy monolith):

* `src/core/storage.js` — `handleProcessImage`, `processImageFallback`,
  `resizeImageNearestNeighbor`, `quantizeColorsMedianCut`, `getColorRange`,
  `splitBox`, `getAverageColor`;
* `app.js` — byte-for-byte semantically identical copies of the functions
  above, plus `rgbToHex`, `hexToRgb`, `distanceBetweenColors` (the module
  version imports these from `src/utils/colorUtils.js`);
* the web-worker source (`imageWorker.js`, whose text is kept in the
  repository inside `README.md`) — `quantizeColorsOptimized`,
  `medianCutOptimized`, `getColorRanges`, `splitBucket`, `averageColors`,
  `mapPixelsToNearest`, `mapPixelsWithDithering`, `distributeError`,
  `clamp`, `findNearestColor`, and the worker's own `hexToRgb` (whose
  malformed-input default is black, unlike the main-thread white default).

Modelling conventions:

* JavaScript numbers are modelled as `ℕ`/`ℤ` where the source only ever
  holds integers, and as `ℚ` where fractional values occur (`(min+max)/2`,
  Floyd–Steinberg weights `7/16`, …).  All fractional constants of the
  source are dyadic rationals, and all rounding steps happen at
  magnitudes far away from the precision of IEEE doubles, so exact
  rational arithmetic agrees with the JS evaluation.
* `Math.round x` (round half toward `+∞`) is `⌊x + 1/2⌋`.
* `null`/`undefined` are `Option.none`.  A pixel grid cell is
  `Option Pixel`; a quantizer box element is also `Option Pixel` because
  JS `Array.pop()` on an empty array returns `undefined`, which the
  source then pushes into a box.
* Code that can raise a `TypeError` (reading `.r` of `undefined`,
  indexing `undefined`) is modelled in `Except Unit`.
* `Math.sqrt (dr*dr+dg*dg+db*db)` is only ever used in strict `<`
  comparisons of distances, and square root is strictly monotone, so the
  model compares squared distances.
-/

/-- An RGB colour triple, as built from decoded image data
(`{r, g, b}` objects in the source). -/
structure Pixel where
  r : ℕ
  g : ℕ
  b : ℕ
deriving DecidableEq, Repr

/-- A palette entry `{hex, label}` as produced by `quantizeColorsMedianCut`. -/
structure Entry where
  hex : String
  label : String
deriving DecidableEq, Repr

/-- The channel a quantizer box is split along (`axis` in `splitBox`). -/
inductive Axis where
  | r
  | g
  | b
deriving DecidableEq, Repr

/-- `pixel[axis]` of the source. -/
def axisVal : Axis → Pixel → ℕ
  | .r, p => p.r
  | .g, p => p.g
  | .b, p => p.b

/-- `List.mapM` into `Except`, written as plain recursion so that induction
is direct.  Stops at the first error, like a JS loop that throws. -/
def mapExcept (f : α → Except Unit β) : List α → Except Unit (List β)
  | [] => .ok []
  | a :: as => do
    let b ← f a
    let bs ← mapExcept f as
    .ok (b :: bs)

/-- `List.foldlM` into `Except`, written as plain recursion. -/
def foldlExcept (f : β → α → Except Unit β) : β → List α → Except Unit β
  | b, [] => .ok b
  | b, a :: as => do
    let b' ← f b a
    foldlExcept f b' as

/-- Reading every element of a box: the source's `for (let pixel of box)`
loops dereference `pixel.r`, which throws on `undefined`. -/
def toPixels (box : List (Option Pixel)) : Except Unit (List Pixel) :=
  mapExcept (fun c => match c with
    | some p => .ok p
    | none => .error ()) box

/-- `minX = Math.min(minX, f pixel)` folded over a box, JS initial value 255. -/
def foldMin (f : Pixel → ℕ) (ps : List Pixel) : ℕ :=
  ps.foldl (fun m p => min m (f p)) 255

/-- `maxX = Math.max(maxX, f pixel)` folded over a box, JS initial value 0. -/
def foldMax (f : Pixel → ℕ) (ps : List Pixel) : ℕ :=
  ps.foldl (fun m p => max m (f p)) 0

/-! ## ColorMath (`src/utils/colorUtils.js`, duplicated in `app.js`) -/

/-- One character of `x.toString(16)` / a hex digit of the parser. -/
def isHexDigit (c : Char) : Bool :=
  (('0' ≤ c) && (c ≤ '9')) || (('a' ≤ c) && (c ≤ 'f')) || (('A' ≤ c) && (c ≤ 'F'))

/-- Numeric value of a hex digit, as `parseInt(·, 16)` assigns it
(case-insensitive).  Non-digits map to 0; the parser only applies this to
characters matched by the `[a-f\d]` character class. -/
def hexVal (c : Char) : ℕ :=
  if '0' ≤ c ∧ c ≤ '9' then c.toNat - '0'.toNat
  else if 'a' ≤ c ∧ c ≤ 'f' then c.toNat - 'a'.toNat + 10
  else if 'A' ≤ c ∧ c ≤ 'F' then c.toNat - 'A'.toNat + 10
  else 0

/-- `x.toString(16)` padded to two digits when it has one
 (`hex.length === 1 ? '0' + hex : hex`). -/
def toHexPair (n : ℕ) : String :=
  let hx := String.mk (Nat.toDigits 16 n)
  if hx.length = 1 then "0" ++ hx else hx

/-- `rgbToHex(r, g, b)` of `colorUtils.js` (identical in `app.js` and in the
worker). -/
def rgbToHex (r g b : ℕ) : String :=
  "#" ++ toHexPair r ++ toHexPair g ++ toHexPair b

/-- The optional leading `#` of the `/^#?…/` regex. -/
def stripHash : List Char → List Char
  | '#' :: rest => rest
  | cs => cs

/-- Whether the stripped character list matches `([a-f\d]{2}){3}$` with the
`i` flag: exactly six case-insensitive hex digits. -/
def validHexChars : List Char → Bool
  | [c1, c2, c3, c4, c5, c6] =>
    isHexDigit c1 && isHexDigit c2 && isHexDigit c3 &&
    isHexDigit c4 && isHexDigit c5 && isHexDigit c6
  | _ => false

/-- `hexToRgb(hex)` of `colorUtils.js` / `app.js`: parse `#rrggbb`
(case-insensitive, optional `#`); on any malformed input return white
`{r: 255, g: 255, b: 255}`. -/
def hexToRgb (s : String) : Pixel :=
  match stripHash s.toList with
  | [c1, c2, c3, c4, c5, c6] =>
    if isHexDigit c1 && isHexDigit c2 && isHexDigit c3 &&
       isHexDigit c4 && isHexDigit c5 && isHexDigit c6 then
      ⟨16 * hexVal c1 + hexVal c2, 16 * hexVal c3 + hexVal c4,
       16 * hexVal c5 + hexVal c6⟩
    else ⟨255, 255, 255⟩
  | _ => ⟨255, 255, 255⟩

/-- Square of `distanceBetweenColors(c1, c2)`.  The source returns
`Math.sqrt(dr*dr + dg*dg + db*db)` and only ever compares distances with a
strict `<`; square root is strictly monotone, so comparing squares is
exactly equivalent. -/
def distSq (c1 c2 : Pixel) : ℤ :=
  ((c1.r : ℤ) - c2.r) ^ 2 + ((c1.g : ℤ) - c2.g) ^ 2 + ((c1.b : ℤ) - c2.b) ^ 2

/-! ## Quantizer boxes (`storage.js` / `app.js`) -/

/-- `getColorRange(pixels)`: 0 for an empty box, otherwise the largest
per-channel `max − min`.  A box containing `undefined` makes the JS loop
throw.  (The JS fold initials 255/0 cannot make `max − min` negative on a
non-empty box, since every element bounds both folds.) -/
def getColorRange (box : List (Option Pixel)) : Except Unit ℕ :=
  if box.length = 0 then .ok 0
  else do
    let ps ← toPixels box
    .ok (max (foldMax Pixel.r ps - foldMin Pixel.r ps)
         (max (foldMax Pixel.g ps - foldMin Pixel.g ps)
              (foldMax Pixel.b ps - foldMin Pixel.b ps)))

/-- The split axis of `splitBox`: `r` when `rRange >= gRange && rRange >=
bRange`, else `g` when `gRange >= bRange`, else `b` — ties resolve in
R > G > B priority order. -/
def chooseAxis (ps : List Pixel) : Axis :=
  let rRange := foldMax Pixel.r ps - foldMin Pixel.r ps
  let gRange := foldMax Pixel.g ps - foldMin Pixel.g ps
  let bRange := foldMax Pixel.b ps - foldMin Pixel.b ps
  if rRange ≥ gRange ∧ rRange ≥ bRange then .r
  else if gRange ≥ bRange then .g
  else .b

/-- Twice `mids[axis]`: the source computes `mids[axis] = (min + max) / 2`
(an exact dyadic rational in JS); the model keeps `min + max` and compares
doubled values, which is exactly equivalent over the integers. -/
def midTwice (ps : List Pixel) (ax : Axis) : ℕ :=
  foldMin (axisVal ax) ps + foldMax (axisVal ax) ps

/-- The comparison `pixel[axis] < mids[axis]` routing a pixel to `box1`:
`v < (min + max) / 2  ↔  2·v < min + max`. -/
def belowMid (ax : Axis) (mid2 : ℕ) (p : Pixel) : Bool :=
  2 * axisVal ax p < mid2

/-- JS `Array.pop()`: returns the last element (`undefined` when the array
is empty — and an element can itself be `undefined`) and the shortened
array. -/
def jsPop (l : List (Option Pixel)) : Option Pixel × List (Option Pixel) :=
  (l.getLast?.join, l.dropLast)

/-- The pure part of `splitBox` once every element has been read: route
each pixel by `pixel[axis] < mids[axis]`, then repair empty halves by
popping from the sibling (`box1.push(box2.pop())` /
`box2.push(box1.pop())`). -/
def splitBoxCore (ps : List Pixel) : List (Option Pixel) × List (Option Pixel) :=
  let ax := chooseAxis ps
  let mid := midTwice ps ax
  let box1 : List (Option Pixel) := (ps.filter (belowMid ax mid)).map some
  let box2 : List (Option Pixel) := (ps.filter (fun p => !belowMid ax mid p)).map some
  let s1 :=
    if box1.length = 0 then
      let pr := jsPop box2
      (box1 ++ [pr.1], pr.2)
    else (box1, box2)
  if s1.2.length = 0 then
    let pr := jsPop s1.1
    (pr.2, s1.2 ++ [pr.1])
  else s1

/-- `splitBox(pixels)` of `storage.js` / `app.js`: split at the midpoint of
the largest channel range, then repair empty halves by popping from the
sibling.  Iterating a box that contains `undefined` throws in JS
(`pixel.r`), hence `Except`. -/
def splitBox (box : List (Option Pixel)) :
    Except Unit (List (Option Pixel) × List (Option Pixel)) := do
  let ps ← toPixels box
  .ok (splitBoxCore ps)

/-- `Math.round(sum / n)` for natural `sum`, `n`: `⌊sum/n + 1/2⌋`.  (The JS
float quotient is never close enough to a half-integer boundary to round
differently: when `sum/n` is not exactly a half-integer it is at least
`1/(2n)` away from one.) -/
def jsRound (sum n : ℕ) : ℕ :=
  (2 * sum + n) / (2 * n)

/-- `getAverageColor(pixels)`: `{0,0,0}` for an empty box, otherwise the
rounded per-channel mean.  Throws (`pixel.r`) when the box contains
`undefined`. -/
def getAverageColor (box : List (Option Pixel)) : Except Unit Pixel :=
  if box.length = 0 then .ok ⟨0, 0, 0⟩
  else do
    let ps ← toPixels box
    let n := ps.length
    .ok ⟨jsRound (ps.foldl (fun s p => s + p.r) 0) n,
         jsRound (ps.foldl (fun s p => s + p.g) 0) n,
         jsRound (ps.foldl (fun s p => s + p.b) 0) n⟩

/-! ## `quantizeColorsMedianCut` (`storage.js` / `app.js`) -/

/-- The pixel harvest: flatten the grid and keep truthy cells
(`if (pixel) pixels.push(pixel)`). -/
def collectPixels (pixelData : List (List (Option Pixel))) : List Pixel :=
  pixelData.flatMap (fun row => row.filterMap id)

/-- The box-selection scan of the quantizer loop: `maxBox = 0`,
`maxRange = 0`, update on strict `range > maxRange` while scanning the
boxes in index order.  Propagates the `getColorRange` error of a box that
contains `undefined`. -/
def selectMaxBox (boxes : List (List (Option Pixel))) : Except Unit ℕ := do
  let ranges ← mapExcept getColorRange boxes
  .ok ((ranges.enum.foldl
    (fun (st : ℕ × ℕ) (p : ℕ × ℕ) => if p.2 > st.2 then p else st) (0, 0)).1)

/-- The `while (boxes.length < maxColors && iteration < 20)` loop; `fuel`
counts the remaining iterations (20 at the start).  `boxes[maxBox]` of an
out-of-range index would be `undefined` and `splitBox(undefined)` throws
in JS; the model returns the error at the same place. -/
def quantLoop (maxColors : ℕ) :
    ℕ → List (List (Option Pixel)) → Except Unit (List (List (Option Pixel)))
  | 0, boxes => .ok boxes
  | fuel + 1, boxes =>
    if boxes.length < maxColors then do
      let maxBox ← selectMaxBox boxes
      let box ← match boxes[maxBox]? with
        | some b => Except.ok b
        | none => Except.error ()
      let s ← splitBox box
      quantLoop maxColors fuel (boxes.take maxBox ++ [s.1, s.2] ++ boxes.drop (maxBox + 1))
    else .ok boxes

/-- The nearest-colour scan of `quantizeColorsMedianCut`:
`nearestColor = palette[0].hex`, `minDistance = Infinity` (`none`), update
on strict `dist < minDistance`.  Reading `palette[0].hex` of an empty
palette throws in JS. -/
def nearestPaletteHex (pixel : Pixel) (palette : List Entry) : Except Unit String :=
  match palette with
  | [] => .error ()
  | p0 :: _ =>
    .ok ((palette.foldl
      (fun (st : String × Option ℤ) (e : Entry) =>
        let dist := distSq pixel (hexToRgb e.hex)
        match st.2 with
        | none => (e.hex, some dist)
        | some m => if dist < m then (e.hex, some dist) else st)
      (p0.hex, none)).1)

/-- JS assignment `out[i] = v` on an array: in-bounds it overwrites; past
the end it extends the array (the skipped slots are holes, which every
consumer of the grid treats exactly like `null`, so they are modelled as
`none`). -/
def jsSet (l : List (Option String)) (i : ℕ) (v : Option String) : List (Option String) :=
  if i < l.length then l.set i v
  else l ++ List.replicate (i - l.length) none ++ [v]

/-- One step of the output-row loop: a truthy cell at index `x` assigns
the nearest palette hex at `out[x]`; a `null` cell is skipped. -/
def buildRowStep (palette : List Entry) (out : List (Option String))
    (p : ℕ × Option Pixel) : Except Unit (List (Option String)) :=
  match p.2 with
  | some px => do
    let hex ← nearestPaletteHex px palette
    Except.ok (jsSet out p.1 (some hex))
  | none => Except.ok out

/-- One output row of `quantizeColorsMedianCut`: start from
`Array(cols).fill(null)` and assign the nearest palette hex at the index
of every truthy input cell of the row. -/
def buildRow (palette : List Entry) (cols : ℕ) (row : List (Option Pixel)) :
    Except Unit (List (Option String)) :=
  foldlExcept (buildRowStep palette) (List.replicate cols none) row.enum

/-- The `{pixelData, palette}` object returned by `quantizeColorsMedianCut`. -/
structure QuantResult where
  pixelData : List (List (Option String))
  palette : List Entry
deriving DecidableEq, Repr

/-- `quantizeColorsMedianCut(pixelData, maxColors)` of `storage.js` /
`app.js`.  In the empty-population early return the source hands back the
input grid object itself; every cell of that grid is `null` there, so the
value is the same-shape all-`null` grid.  (`pixelData[0]` is only read
when some cell is truthy, hence `headD` is exact on every reachable
input.)  A JS `TypeError` — possible when the loop splits a singleton box
and `undefined` enters a box — is `Except.error`. -/
def quantizeColorsMedianCut (pixelData : List (List (Option Pixel))) (maxColors : ℕ) :
    Except Unit QuantResult :=
  let pixels := collectPixels pixelData
  if pixels.length = 0 then
    .ok ⟨pixelData.map (fun row => row.map (fun _ => none)),
         [⟨"#ffffff", "White"⟩]⟩
  else do
    let boxes ← quantLoop maxColors 20 [pixels.map some]
    let palette ← mapExcept (fun box => do
      let avgColor ← getAverageColor box
      Except.ok (⟨rgbToHex avgColor.r avgColor.g avgColor.b, ""⟩ : Entry)) boxes
    let cols := (pixelData.headD []).length
    let out ← mapExcept (buildRow palette cols) pixelData
    .ok ⟨out, palette⟩

/-! ## Resize and orchestration (`storage.js` / `app.js`) -/

/-- A decoded source bitmap: flat row-major RGBA bytes, as
`getImageData(...).data` delivers it (`data.length = 4 * width * height`
for a well-formed bitmap). -/
structure Bitmap where
  width : ℕ
  height : ℕ
  data : List ℕ
deriving DecidableEq, Repr

/-- `resizeImageNearestNeighbor(img, targetWidth, targetHeight)`:
`srcX = Math.floor(x * (img.width / targetWidth))` — modelled as the exact
`⌊x·width/targetWidth⌋` — and a cell is `null` exactly when the sampled
alpha is below 128.  Out-of-range reads (only possible for a malformed
bitmap) default to 0. -/
def resizeImageNearestNeighbor (img : Bitmap) (targetWidth targetHeight : ℕ) :
    List (List (Option Pixel)) :=
  (List.range targetHeight).map (fun y =>
    (List.range targetWidth).map (fun x =>
      let srcX := x * img.width / targetWidth
      let srcY := y * img.height / targetHeight
      let srcIndex := (srcY * img.width + srcX) * 4
      let a := img.data.getD (srcIndex + 3) 0
      if a < 128 then none
      else some ⟨img.data.getD srcIndex 0, img.data.getD (srcIndex + 1) 0,
                 img.data.getD (srcIndex + 2) 0⟩))

/-- The `state.processedImageData` record stored by `processImageFallback`. -/
structure ProcessedImageData where
  pixelData : List (List (Option String))
  width : ℕ
  height : ℕ
  palette : List Entry
deriving DecidableEq, Repr

/-- `processImageFallback(targetWidth, targetHeight, maxColors)`: resize,
then quantize; note that the fallback receives no resize mode, palette
lock, dithering or auto-template arguments at all.  The `try/catch` that
turns a thrown error into an error notification is the `Except`. -/
def processImageFallback (img : Bitmap) (targetWidth targetHeight maxColors : ℕ) :
    Except Unit ProcessedImageData := do
  let resizedPixels := resizeImageNearestNeighbor img targetWidth targetHeight
  let quantizedData ← quantizeColorsMedianCut resizedPixels maxColors
  .ok ⟨quantizedData.pixelData, targetWidth, targetHeight, quantizedData.palette⟩

/-- The message posted to the worker by `processImageWithWorker`. -/
structure WorkerRequest where
  imageData : Bitmap
  targetWidth : ℤ
  targetHeight : ℤ
  maxColors : ℤ
  detailBoost : ℤ
  resizeMode : String
  usePaletteLock : Bool
  lockedPalette : Option (List String)
  enableDithering : Bool
  autoTemplateMode : Bool
deriving DecidableEq, Repr

/-- What `handleProcessImage` does with a request: reject it with a
notification before any pipeline step, post it to the worker, or run the
synchronous fallback. -/
inductive ProcessOutcome where
  | rejected (message : String)
  | workerRequest (req : WorkerRequest)
  | fallback (result : Except Unit ProcessedImageData)
deriving Repr

instance {α : Type} [DecidableEq α] [DecidableEq ε] : DecidableEq (Except ε α) := fun a b =>
  match a, b with
  | .ok x, .ok y => decidable_of_iff (x = y) (by simp)
  | .error x, .error y => decidable_of_iff (x = y) (by simp)
  | .ok _, .error _ => isFalse (by simp)
  | .error _, .ok _ => isFalse (by simp)

instance : DecidableEq ProcessOutcome := fun a b =>
  match a, b with
  | .rejected x, .rejected y => decidable_of_iff (x = y) (by simp)
  | .workerRequest x, .workerRequest y => decidable_of_iff (x = y) (by simp)
  | .fallback x, .fallback y => decidable_of_iff (x = y) (by simp)
  | .rejected _, .workerRequest _ => isFalse (by simp)
  | .rejected _, .fallback _ => isFalse (by simp)
  | .workerRequest _, .rejected _ => isFalse (by simp)
  | .workerRequest _, .fallback _ => isFalse (by simp)
  | .fallback _, .rejected _ => isFalse (by simp)
  | .fallback _, .workerRequest _ => isFalse (by simp)

/-- `handleProcessImage()` of `storage.js` / `app.js`, with the DOM reads
made explicit parameters: `uploadedImage` is `state.uploadedImage`, the
three `Option ℤ` values are the `parseInt` results (`none` = `NaN`),
`statePalette` is `state.palette.map(c => c.hex)` material, and
`workerReady` selects the strategy.  Validation rejects out-of-range
dimensions and colour counts before either strategy runs; the fallback
call forwards only the three numeric arguments. -/
def handleProcessImage (uploadedImage : Option Bitmap)
    (parsedWidth parsedHeight parsedColors : Option ℤ)
    (detailBoost : ℤ) (resizeMode : String)
    (usePaletteLock enableDithering autoTemplateMode : Bool)
    (statePalette : List String) (workerReady : Bool) : ProcessOutcome :=
  match uploadedImage with
  | none => .rejected "Please upload an image first."
  | some img =>
    match parsedWidth, parsedHeight, parsedColors with
    | some targetWidth, some targetHeight, some maxColors =>
      if targetWidth < 4 ∨ targetHeight < 4 ∨ targetWidth > 80 ∨ targetHeight > 80 then
        .rejected "Grid size must be between 4 and 80."
      else if maxColors < 2 ∨ maxColors > 12 then
        .rejected "Max colors must be between 2 and 12."
      else
        let lockedPalette := if usePaletteLock ∧ statePalette.length > 0
          then some statePalette else none
        if workerReady then
          .workerRequest ⟨img, targetWidth, targetHeight, maxColors, detailBoost,
            resizeMode, usePaletteLock, lockedPalette, enableDithering, autoTemplateMode⟩
        else
          .fallback (processImageFallback img targetWidth.toNat targetHeight.toNat
            maxColors.toNat)
    | _, _, _ => .rejected "Please enter valid numbers for all fields."

/-! ## The web worker (`imageWorker.js`, source kept in `README.md`) -/

namespace Worker

/-- The worker's own `hexToRgb`: same regex as the main thread but the
malformed-input default is black `{0,0,0}`, not white. -/
def hexToRgb (s : String) : Pixel :=
  match stripHash s.toList with
  | [c1, c2, c3, c4, c5, c6] =>
    if isHexDigit c1 && isHexDigit c2 && isHexDigit c3 &&
       isHexDigit c4 && isHexDigit c5 && isHexDigit c6 then
      ⟨16 * hexVal c1 + hexVal c2, 16 * hexVal c3 + hexVal c4,
       16 * hexVal c5 + hexVal c6⟩
    else ⟨0, 0, 0⟩
  | _ => ⟨0, 0, 0⟩

/-- `findNearestColor(r, g, b, palette)`: `minDist = Infinity` (`none`),
`nearest = 0`, update on strict `<` of squared distances (the worker
compares `(r-pr)**2 + …` directly, without a square root). -/
def findNearestColor (r g b : ℕ) (palette : List Pixel) : ℕ :=
  (palette.enum.foldl
    (fun (st : ℕ × Option ℤ) (p : ℕ × Pixel) =>
      let dist := ((r : ℤ) - p.2.r) ^ 2 + ((g : ℤ) - p.2.g) ^ 2 + ((b : ℤ) - p.2.b) ^ 2
      match st.2 with
      | none => (p.1, some dist)
      | some m => if dist < m then (p.1, some dist) else st)
    (0, none)).1

/-- `clamp(value) = Math.max(0, Math.min(255, Math.round(value)))`. -/
def clamp (value : ℚ) : ℕ :=
  (max 0 (min 255 ⌊value + 1 / 2⌋)).toNat

/-- `distributeError(pixels, width, height, x, y, errR, errG, errB,
weight)`: silently skip out-of-bounds neighbours, otherwise add the
weighted error to the three RGB bytes and clamp.  Only indices
`idx, idx+1, idx+2` with `idx ≡ 0 (mod 4)` are written: alpha bytes are
never touched. -/
def distributeError (pixels : List ℕ) (width height : ℕ) (x y : ℤ)
    (errR errG errB : ℤ) (weight : ℚ) : List ℕ :=
  if x < 0 ∨ x ≥ (width : ℤ) ∨ y < 0 ∨ y ≥ (height : ℤ) then pixels
  else
    let idx := ((y * width + x) * 4).toNat
    let pixels := pixels.set idx (clamp ((pixels.getD idx 0 : ℚ) + errR * weight))
    let pixels := pixels.set (idx + 1) (clamp ((pixels.getD (idx + 1) 0 : ℚ) + errG * weight))
    pixels.set (idx + 2) (clamp ((pixels.getD (idx + 2) 0 : ℚ) + errB * weight))

/-- One iteration of the raster-order dithering loop of
`mapPixelsWithDithering`, at position `(y, x)`: a transparent pixel
(`a < 128`) pushes `null` and `continue`s without touching the working
buffer; an opaque pixel pushes its nearest palette colour and distributes
the quantization error to the four Floyd–Steinberg neighbours.  With an
empty palette the JS code throws at `newColor.r`. -/
def ditherStep (palette : List String) (paletteRGB : List Pixel) (width height : ℕ)
    (st : List ℕ × List (Option String)) (pos : ℕ × ℕ) :
    Except Unit (List ℕ × List (Option String)) :=
  let y := pos.1
  let x := pos.2
  let dithered := st.1
  let idx := (y * width + x) * 4
  let oldR := dithered.getD idx 0
  let oldG := dithered.getD (idx + 1) 0
  let oldB := dithered.getD (idx + 2) 0
  let a := dithered.getD (idx + 3) 0
  if a < 128 then .ok (dithered, st.2 ++ [none])
  else
    let nearest := findNearestColor oldR oldG oldB paletteRGB
    match paletteRGB[nearest]? with
    | none => .error ()
    | some newColor =>
      let result := st.2 ++ [palette[nearest]?]
      let errR : ℤ := (oldR : ℤ) - newColor.r
      let errG : ℤ := (oldG : ℤ) - newColor.g
      let errB : ℤ := (oldB : ℤ) - newColor.b
      let d := distributeError dithered width height ((x : ℤ) + 1) (y : ℤ) errR errG errB (7 / 16)
      let d := distributeError d width height ((x : ℤ) - 1) ((y : ℤ) + 1) errR errG errB (3 / 16)
      let d := distributeError d width height (x : ℤ) ((y : ℤ) + 1) errR errG errB (5 / 16)
      let d := distributeError d width height ((x : ℤ) + 1) ((y : ℤ) + 1) errR errG errB (1 / 16)
      .ok (d, result)

/-- `mapPixelsWithDithering(pixels, palette, width)`: Floyd–Steinberg over
a mutable copy of the flat RGBA buffer, in raster order, then slice the
flat result list into rows of `width`. -/
def mapPixelsWithDithering (pixels : List ℕ) (palette : List String) (width : ℕ) :
    Except Unit (List (List (Option String))) := do
  let height := pixels.length / 4 / width
  let paletteRGB := palette.map hexToRgb
  let final ← foldlExcept
    (fun st y =>
      foldlExcept (fun st' x => ditherStep palette paletteRGB width height st' (y, x))
        st (List.range width))
    (pixels, ([] : List (Option String))) (List.range height)
  .ok ((List.range height).map (fun y => (final.2.drop (y * width)).take width))

/-- `mapPixelsToNearest(pixels, palette)`: plain nearest mapping, no error
bookkeeping.  The source computes `width = Math.sqrt(pixels.length / 4)`
(a float, meaningful only for square pixel counts); the model uses the
integer square root, which agrees whenever the count is a perfect
square. -/
def mapPixelsToNearest (pixels : List ℕ) (palette : List String) :
    List (List (Option String)) :=
  let numPixels := pixels.length / 4
  let width := Nat.sqrt numPixels
  let height := numPixels / width
  let paletteRGB := palette.map hexToRgb
  let result := (List.range numPixels).map (fun i =>
    let a := pixels.getD (i * 4 + 3) 0
    if a < 128 then none
    else palette[findNearestColor (pixels.getD (i * 4) 0) (pixels.getD (i * 4 + 1) 0)
      (pixels.getD (i * 4 + 2) 0) paletteRGB]?)
  (List.range height).map (fun y => (result.drop (y * width)).take width)

/-- A worker quantizer bucket `{colors, count}`: flat RGB triples. -/
structure WBucket where
  colors : List ℕ
  count : ℕ
deriving DecidableEq, Repr

/-- `colors[i*3+channel]` of a flat triple list. -/
def colorAt (colors : List ℕ) (i channel : ℕ) : ℕ :=
  colors.getD (i * 3 + channel) 0

/-- `getColorRanges(colors)`: per-channel `max − min` over the flat triple
list (JS fold initials 255/0; non-negative for a non-empty list of
byte-valued channels). -/
def getColorRanges (colors : List ℕ) : ℕ × ℕ × ℕ :=
  let n := colors.length / 3
  let mn := fun c => (List.range n).foldl (fun m i => min m (colorAt colors i c)) 255
  let mx := fun c => (List.range n).foldl (fun m i => max m (colorAt colors i c)) 0
  (mx 0 - mn 0, mx 1 - mn 1, mx 2 - mn 2)

/-- `splitBucket(bucket, channel)`: sort the triple indices by the given
channel (stably, as modern engines sort) and split at the count median
`Math.floor(numColors / 2)`. -/
def splitBucket (bucket : WBucket) (channel : ℕ) : WBucket × WBucket :=
  let colors := bucket.colors
  let numColors := colors.length / 3
  let indices := (List.range numColors).mergeSort
    (fun a b => colorAt colors a channel ≤ colorAt colors b channel)
  let median := numColors / 2
  let triple := fun i => [colors.getD (i * 3) 0, colors.getD (i * 3 + 1) 0,
    colors.getD (i * 3 + 2) 0]
  (⟨(indices.take median).flatMap triple, median⟩,
   ⟨(indices.drop median).flatMap triple, numColors - median⟩)

/-- The bucket-selection scan of `medianCutOptimized`: skip buckets with
fewer than two colours (`count < 2`), track the largest channel range
(initial `maxRange = -1`, so any candidate wins first) together with the
bucket index and the channel chosen with R ≥ G ≥ B tie priority; `none`
when no splittable bucket exists. -/
def selectSplittable (buckets : List WBucket) : Option (ℕ × ℕ) :=
  (buckets.enum.foldl
    (fun (st : ℤ × Option (ℕ × ℕ)) (p : ℕ × WBucket) =>
      if p.2.count < 2 then st
      else
        let ranges := getColorRanges p.2.colors
        let range : ℤ := max (ranges.1 : ℤ) (max (ranges.2.1 : ℤ) (ranges.2.2 : ℤ))
        if range > st.1 then
          (range, some (p.1,
            if ranges.1 ≥ ranges.2.1 then (if ranges.1 ≥ ranges.2.2 then 0 else 2)
            else (if ranges.2.1 ≥ ranges.2.2 then 1 else 2)))
        else st)
    (-1, none)).2

/-- The `while (buckets.length < maxColors)` loop of `medianCutOptimized`;
each iteration adds one bucket, so `maxColors` fuel is enough. -/
def medianLoop (maxColors : ℕ) : ℕ → List WBucket → List WBucket
  | 0, buckets => buckets
  | fuel + 1, buckets =>
    if buckets.length < maxColors then
      match selectSplittable buckets with
      | none => buckets
      | some (idx, channel) =>
        let bucket := buckets.getD idx ⟨[], 0⟩
        let s := splitBucket bucket channel
        medianLoop maxColors fuel (buckets.take idx ++ [s.1, s.2] ++ buckets.drop (idx + 1))
    else buckets

/-- `averageColors(colors)`: rounded per-channel mean of a flat triple
list.  (For an empty list JS produces `NaN` channels and a `#NaNNaNNaN`
palette entry; the loop never splits a bucket below one element, so this
is unreachable from `medianCutOptimized` with a non-empty population.) -/
def averageColors (colors : List ℕ) : Pixel :=
  let count := colors.length / 3
  let n := colors.length / 3
  let sum := fun c => (List.range n).foldl (fun s i => s + colorAt colors i c) 0
  ⟨jsRound (sum 0) count, jsRound (sum 1) count, jsRound (sum 2) count⟩

/-- `medianCutOptimized(colors, maxColors)`: clamp `maxColors` to
`[2, 256]`, split until the bucket count reaches it or no splittable
bucket remains, then average each bucket into a hex string. -/
def medianCutOptimized (colors : List ℕ) (maxColors : ℕ) : List String :=
  let maxColors := if maxColors < 2 then 2 else maxColors
  let maxColors := if maxColors > 256 then 256 else maxColors
  let numPixels := colors.length / 3
  let buckets := medianLoop maxColors maxColors [⟨colors, numPixels⟩]
  buckets.map (fun bucket =>
    let avg := averageColors bucket.colors
    rgbToHex avg.r avg.g avg.b)

/-- The `{palette, pixelData}` object returned by
`quantizeColorsOptimized`. -/
structure WorkerQuantResult where
  palette : List String
  pixelData : List (List (Option String))
deriving DecidableEq, Repr

/-- `quantizeColorsOptimized(pixels, maxColors, detailBoost,
enableDithering, usePaletteLock, lockedPalette)`: strip the RGBA buffer to
flat RGB triples; use the locked palette verbatim when `usePaletteLock`
is set and the list is non-empty, otherwise run the median cut; then map
pixels with or without dithering.  (`width = Math.sqrt(numPixels)` is
modelled by the integer square root, as in `mapPixelsToNearest`.) -/
def quantizeColorsOptimized (pixels : List ℕ) (maxColors : ℕ) (detailBoost : ℤ)
    (enableDithering usePaletteLock : Bool) (lockedPalette : Option (List String)) :
    Except Unit WorkerQuantResult :=
  let numPixels := pixels.length / 4
  let colors := (List.range numPixels).flatMap (fun i =>
    [pixels.getD (i * 4) 0, pixels.getD (i * 4 + 1) 0, pixels.getD (i * 4 + 2) 0])
  let palette :=
    if usePaletteLock ∧ (lockedPalette.getD []).length > 0 ∧ lockedPalette.isSome then
      lockedPalette.getD []
    else medianCutOptimized colors maxColors
  if enableDithering then do
    let grid ← mapPixelsWithDithering pixels palette (Nat.sqrt numPixels)
    .ok ⟨palette, grid⟩
  else .ok ⟨palette, mapPixelsToNearest pixels palette⟩

end Worker

/-! ## Basic lemmas about the embedding's plumbing -/

@[simp] theorem ok_bind (b : α) (k : α → Except ε β) : (Except.ok b >>= k) = k b := rfl

@[simp] theorem error_bind (e : ε) (k : α → Except ε β) :
    ((Except.error e : Except ε α) >>= k) = .error e := rfl

theorem mapExcept_ok_length {f : α → Except Unit β} :
    ∀ {l : List α} {res : List β}, mapExcept f l = .ok res → res.length = l.length := by
  intro l
  induction l with
  | nil =>
    intro res h
    simp only [mapExcept] at h
    cases h
    rfl
  | cons a as ih =>
    intro res h
    simp only [mapExcept] at h
    cases h1 : f a with
    | error e => rw [h1, error_bind] at h; exact Except.noConfusion h
    | ok b =>
      rw [h1, ok_bind] at h
      cases h2 : mapExcept f as with
      | error e => rw [h2, error_bind] at h; exact Except.noConfusion h
      | ok bs =>
        rw [h2, ok_bind] at h
        have h3 : bs.length = as.length := ih h2
        cases h
        simp [h3]

theorem toPixels_map_some (ps : List Pixel) : toPixels (ps.map some) = .ok ps := by
  induction ps with
  | nil => rfl
  | cons p rest ih =>
    simp only [toPixels, mapExcept, List.map] at ih ⊢
    rw [ih]
    rfl

theorem foldl_min_le_init (f : Pixel → ℕ) :
    ∀ (ps : List Pixel) (a : ℕ), ps.foldl (fun m q => min m (f q)) a ≤ a := by
  intro ps
  induction ps with
  | nil => intro a; exact le_refl a
  | cons q rest ih =>
    intro a
    exact le_trans (ih (min a (f q))) (min_le_left _ _)

theorem le_foldl_max_init (f : Pixel → ℕ) :
    ∀ (ps : List Pixel) (a : ℕ), a ≤ ps.foldl (fun m q => max m (f q)) a := by
  intro ps
  induction ps with
  | nil => intro a; exact le_refl a
  | cons q rest ih =>
    intro a
    exact le_trans (le_max_left _ _) (ih (max a (f q)))

theorem foldl_min_le_of_mem (f : Pixel → ℕ) :
    ∀ (ps : List Pixel) (a : ℕ) (p : Pixel), p ∈ ps →
      ps.foldl (fun m q => min m (f q)) a ≤ f p := by
  intro ps
  induction ps with
  | nil => intro a p h; cases h
  | cons q rest ih =>
    intro a p h
    rcases List.mem_cons.mp h with h | h
    · subst h
      exact le_trans (foldl_min_le_init f rest (min a (f p))) (min_le_right _ _)
    · exact ih _ p h

theorem foldl_max_le_of_mem (f : Pixel → ℕ) :
    ∀ (ps : List Pixel) (a : ℕ) (p : Pixel), p ∈ ps →
      f p ≤ ps.foldl (fun m q => max m (f q)) a := by
  intro ps
  induction ps with
  | nil => intro a p h; cases h
  | cons q rest ih =>
    intro a p h
    rcases List.mem_cons.mp h with h | h
    · subst h
      exact le_trans (le_max_right a (f p)) (le_foldl_max_init f rest (max a (f p)))
    · exact ih _ p h

theorem foldl_max_attained (f : Pixel → ℕ) :
    ∀ (ps : List Pixel) (a : ℕ),
      ps.foldl (fun m q => max m (f q)) a = a ∨
      ∃ p ∈ ps, ps.foldl (fun m q => max m (f q)) a = f p := by
  intro ps
  induction ps with
  | nil => intro a; exact Or.inl rfl
  | cons q rest ih =>
    intro a
    rcases ih (max a (f q)) with h | ⟨p, hp, h⟩
    · rcases max_choice a (f q) with hm | hm
      · exact Or.inl (by simpa [hm] using h)
      · exact Or.inr ⟨q, List.mem_cons_self _ _, by simpa [hm] using h⟩
    · exact Or.inr ⟨p, List.mem_cons_of_mem _ hp, h⟩

/-- Some pixel of a non-empty box is not strictly below the midpoint of
the chosen axis (the one attaining the channel maximum is not), so the
second half of the midpoint partition is never empty before the repair
step. -/
theorem exists_not_belowMid (ps : List Pixel) (hne : ps ≠ []) (ax : Axis) :
    ∃ p ∈ ps, belowMid ax (midTwice ps ax) p = false := by
  obtain ⟨p0, hp0⟩ := List.exists_mem_of_ne_nil ps hne
  have hmx := foldl_max_attained (axisVal ax) ps 0
  have hex : ∃ p ∈ ps, foldMax (axisVal ax) ps ≤ axisVal ax p := by
    rcases hmx with h0 | ⟨p, hp, he⟩
    · exact ⟨p0, hp0, by rw [foldMax, h0]; exact Nat.zero_le _⟩
    · exact ⟨p, hp, by rw [foldMax, he]⟩
  obtain ⟨p, hp, hge⟩ := hex
  refine ⟨p, hp, ?_⟩
  have hmn : foldMin (axisVal ax) ps ≤ axisVal ax p :=
    foldl_min_le_of_mem _ ps 255 p hp
  simp only [belowMid, midTwice, decide_eq_false_iff_not, not_lt]
  omega

theorem jsPop_map_some (ps : List Pixel) (hne : ps ≠ []) :
    jsPop (ps.map some) = (some (ps.getLast hne), (ps.dropLast).map some) := by
  rw [jsPop, List.getLast?_map, List.getLast?_eq_getLast ps hne, List.map_dropLast]
  rfl

/-- Full behaviour of `splitBoxCore` on a box of at least two pixels: the
two halves are a permutation of the input, both are non-empty, and they
are the midpoint partition — except that when no pixel is strictly below
the midpoint the last pixel is moved across, giving halves of sizes `1`
and `n − 1`. -/
theorem splitBoxCore_spec (ps : List Pixel) (h2 : 2 ≤ ps.length) :
    (splitBoxCore ps).1 ≠ [] ∧ (splitBoxCore ps).2 ≠ [] ∧
    ((splitBoxCore ps).1 ++ (splitBoxCore ps).2).Perm (ps.map some) ∧
    (ps.filter (belowMid (chooseAxis ps) (midTwice ps (chooseAxis ps))) ≠ [] →
      (splitBoxCore ps).1 =
        (ps.filter (belowMid (chooseAxis ps) (midTwice ps (chooseAxis ps)))).map some ∧
      (splitBoxCore ps).2 =
        (ps.filter (fun p => !belowMid (chooseAxis ps) (midTwice ps (chooseAxis ps)) p)).map some) ∧
    (ps.filter (belowMid (chooseAxis ps) (midTwice ps (chooseAxis ps))) = [] →
      (splitBoxCore ps).1.length = 1 ∧
      (splitBoxCore ps).2 = (ps.dropLast).map some) := by
  have hne : ps ≠ [] := by
    intro h
    rw [h] at h2
    exact absurd h2 (by simp)
  obtain ⟨pw, hpw, hpwb⟩ := exists_not_belowMid ps hne (chooseAxis ps)
  have habove :
      ps.filter (fun p => !belowMid (chooseAxis ps) (midTwice ps (chooseAxis ps)) p) ≠ [] := by
    intro h
    have := List.filter_eq_nil_iff.mp h pw hpw
    simp [hpwb] at this
  by_cases hb : ps.filter (belowMid (chooseAxis ps) (midTwice ps (chooseAxis ps))) = []
  · -- no pixel below the midpoint: box1 empty, steal the last pixel
    have hall :
        ps.filter (fun p => !belowMid (chooseAxis ps) (midTwice ps (chooseAxis ps)) p) = ps := by
      apply List.filter_eq_self.mpr
      intro a ha
      have := List.filter_eq_nil_iff.mp hb a ha
      simpa using this
    have hdrop : ((ps.dropLast).map some).length = ps.length - 1 := by
      simp [List.length_dropLast]
    have hpos : ¬ (((ps.dropLast).map some).length = 0) := by
      rw [hdrop]
      omega
    have hcore : splitBoxCore ps = ([some (ps.getLast hne)], (ps.dropLast).map some) := by
      rw [splitBoxCore]
      split_ifs with hi1 hi2 hi3
      · exact absurd (by simpa [hb, hall, jsPop_map_some ps hne] using hi2) hpos
      · simp [hb, hall, jsPop_map_some ps hne]
      · exact absurd (by simp [hb]) hi1
      · exact absurd (by simp [hb]) hi1
    rw [hcore]
    refine ⟨by simp, ?_, ?_, fun hcontra => absurd hb hcontra, fun _ => ⟨rfl, rfl⟩⟩
    · intro h
      apply hpos
      have h' : List.map some ps.dropLast = [] := h
      rw [h']
      rfl
    · have hsplit : ps.map some = (ps.dropLast).map some ++ [some (ps.getLast hne)] := by
        conv_lhs => rw [← List.dropLast_append_getLast hne]
        rw [List.map_append]
        rfl
      rw [hsplit]
      exact List.perm_append_comm
  · -- some pixel below the midpoint: no repair needed
    have hcore : splitBoxCore ps =
        ((ps.filter (belowMid (chooseAxis ps) (midTwice ps (chooseAxis ps)))).map some,
         (ps.filter (fun p => !belowMid (chooseAxis ps) (midTwice ps (chooseAxis ps)) p)).map some) := by
      rw [splitBoxCore]
      split_ifs with hi1 hi2 hi3
      · exact absurd (by simpa using hi1) hb
      · exact absurd (by simpa using hi1) hb
      · exact absurd (by simpa using hi3) habove
      · rfl
    rw [hcore]
    refine ⟨by simpa using hb, by simpa using habove, ?_, fun _ => ⟨rfl, rfl⟩,
      fun h => absurd h hb⟩
    rw [← List.map_append]
    exact List.Perm.map some (List.filter_append_perm _ ps)

theorem splitBox_map_some_eq (ps : List Pixel) :
    splitBox (ps.map some) = .ok (splitBoxCore ps) := by
  rw [splitBox, toPixels_map_some, ok_bind]

/-- C2: splitting a singleton bucket leaves the first sub-bucket empty —
`splitBox([p])` routes `p` to the second half (`p[axis] < mid` is false at
`mid = p[axis]`), the first repair moves it to `box1`, and the second
repair moves it straight back, returning `([], [p])`.  The quantizer loop
does perform such a split (a single-pixel population with `maxColors = 2`),
so after that split it holds an empty bucket, contradicting the documented
invariant that every bucket has at least one element after any split. -/
theorem c2_splitBox_singleton_empty_bucket :
    splitBox [some (⟨0, 0, 0⟩ : Pixel)] = .ok ([], [some ⟨0, 0, 0⟩]) ∧
    quantLoop 2 20 [[some (⟨0, 0, 0⟩ : Pixel)]] = .ok [[], [some ⟨0, 0, 0⟩]] := by
  decide

/-- C3 counterexample: the fallback `splitBox` does not split at the count
median.  On the four-pixel bucket `[(0,0,0), (0,0,0), (0,0,0), (10,0,0)]`
the claimed sizes are `⌈4/2⌉ = 2` and `⌊4/2⌋ = 2`, but the code splits at
the value midpoint `(0+10)/2 = 5` of the red channel, giving sub-buckets
of sizes 3 and 1. -/
theorem c3_counterexample_sizes :
    (splitBox ((List.replicate 3 (⟨0, 0, 0⟩ : Pixel) ++ [(⟨10, 0, 0⟩ : Pixel)]).map some)).map
        (fun s => (s.1.length, s.2.length)) = .ok (3, 1) ∧
    ((3 : ℕ), (1 : ℕ)) ≠ ((2 : ℕ), (2 : ℕ)) := by
  decide

/-- C3 (amended): `splitBox` splits along the highest-range channel
(R > G > B tie priority) at the value midpoint `(min+max)/2`, not at the
count median: pixels strictly below the midpoint form the first
sub-bucket and the rest the second (a permutation of the input), except
that when no pixel is below the midpoint the last pixel is moved across,
giving sizes `1` and `n − 1`. -/
theorem c3_splitBox_midpoint_characterization (ps : List Pixel) (h2 : 2 ≤ ps.length) :
    ∃ b1 b2,
      splitBox (ps.map some) = .ok (b1, b2) ∧
      (b1 ++ b2).Perm (ps.map some) ∧
      (ps.filter (belowMid (chooseAxis ps) (midTwice ps (chooseAxis ps))) ≠ [] →
        b1 = (ps.filter (belowMid (chooseAxis ps) (midTwice ps (chooseAxis ps)))).map some ∧
        b2 = (ps.filter (fun p => !belowMid (chooseAxis ps) (midTwice ps (chooseAxis ps)) p)).map some) ∧
      (ps.filter (belowMid (chooseAxis ps) (midTwice ps (chooseAxis ps))) = [] →
        b1.length = 1 ∧ b2.length = ps.length - 1) := by
  obtain ⟨hne1, hne2, hperm, hbelow, hempty⟩ := splitBoxCore_spec ps h2
  refine ⟨(splitBoxCore ps).1, (splitBoxCore ps).2, splitBox_map_some_eq ps, hperm,
    hbelow, fun h => ⟨(hempty h).1, ?_⟩⟩
  rw [(hempty h).2]
  simp [List.length_dropLast]

/-- C3 witness: a concrete two-pixel bucket. -/
theorem c3_splitBox_midpoint_characterization_witness :
    2 ≤ ([⟨0, 0, 0⟩, ⟨255, 0, 0⟩] : List Pixel).length ∧
    (∃ b1 b2,
      splitBox (([⟨0, 0, 0⟩, ⟨255, 0, 0⟩] : List Pixel).map some) = .ok (b1, b2) ∧
      (b1 ++ b2).Perm (([⟨0, 0, 0⟩, ⟨255, 0, 0⟩] : List Pixel).map some) ∧
      (([⟨0, 0, 0⟩, ⟨255, 0, 0⟩] : List Pixel).filter
          (belowMid (chooseAxis [⟨0, 0, 0⟩, ⟨255, 0, 0⟩])
            (midTwice [⟨0, 0, 0⟩, ⟨255, 0, 0⟩] (chooseAxis [⟨0, 0, 0⟩, ⟨255, 0, 0⟩]))) ≠ [] →
        b1 = (([⟨0, 0, 0⟩, ⟨255, 0, 0⟩] : List Pixel).filter
          (belowMid (chooseAxis [⟨0, 0, 0⟩, ⟨255, 0, 0⟩])
            (midTwice [⟨0, 0, 0⟩, ⟨255, 0, 0⟩] (chooseAxis [⟨0, 0, 0⟩, ⟨255, 0, 0⟩])))).map some ∧
        b2 = (([⟨0, 0, 0⟩, ⟨255, 0, 0⟩] : List Pixel).filter
          (fun p => !belowMid (chooseAxis [⟨0, 0, 0⟩, ⟨255, 0, 0⟩])
            (midTwice [⟨0, 0, 0⟩, ⟨255, 0, 0⟩] (chooseAxis [⟨0, 0, 0⟩, ⟨255, 0, 0⟩])) p)).map some) ∧
      (([⟨0, 0, 0⟩, ⟨255, 0, 0⟩] : List Pixel).filter
          (belowMid (chooseAxis [⟨0, 0, 0⟩, ⟨255, 0, 0⟩])
            (midTwice [⟨0, 0, 0⟩, ⟨255, 0, 0⟩] (chooseAxis [⟨0, 0, 0⟩, ⟨255, 0, 0⟩]))) = [] →
        b1.length = 1 ∧ b2.length = ([⟨0, 0, 0⟩, ⟨255, 0, 0⟩] : List Pixel).length - 1)) :=
  ⟨by decide, c3_splitBox_midpoint_characterization [⟨0, 0, 0⟩, ⟨255, 0, 0⟩] (by decide)⟩

theorem splice_length {boxes : List (List (Option Pixel))} {k : ℕ}
    {b1 b2 : List (Option Pixel)} (hk : k < boxes.length) :
    (boxes.take k ++ [b1, b2] ++ boxes.drop (k + 1)).length = boxes.length + 1 := by
  simp only [List.length_append, List.length_take, List.length_drop, List.length_cons,
    List.length_nil]
  omega

/-- The quantizer loop grows the box list by exactly one per iteration and
stops at `maxColors` (or at the fuel bound), so a successful run returns
between `boxes.length` and `max boxes.length maxColors` boxes. -/
theorem quantLoop_ok_length (maxColors : ℕ) :
    ∀ (fuel : ℕ) (boxes res : List (List (Option Pixel))),
      quantLoop maxColors fuel boxes = .ok res →
      boxes.length ≤ res.length ∧ res.length ≤ max boxes.length maxColors := by
  intro fuel
  induction fuel with
  | zero =>
    intro boxes res h
    rw [quantLoop] at h
    cases h
    exact ⟨le_refl _, le_max_left _ _⟩
  | succ fuel ih =>
    intro boxes res h
    rw [quantLoop] at h
    by_cases hlt : boxes.length < maxColors
    · rw [if_pos hlt] at h
      cases hsel : selectMaxBox boxes with
      | error e => rw [hsel, error_bind] at h; exact Except.noConfusion h
      | ok maxBox =>
        rw [hsel, ok_bind] at h
        cases hget : boxes[maxBox]? with
        | none => rw [hget] at h; simp only [error_bind] at h; exact Except.noConfusion h
        | some box =>
          rw [hget] at h
          simp only [ok_bind] at h
          cases hsp : splitBox box with
          | error e => rw [hsp, error_bind] at h; exact Except.noConfusion h
          | ok s =>
            rw [hsp, ok_bind] at h
            have hk : maxBox < boxes.length := by
              by_contra hc
              rw [List.getElem?_eq_none (by omega)] at hget
              exact Option.noConfusion hget
            have hlen := @splice_length boxes maxBox s.1 s.2 hk
            have := ih _ res h
            rw [hlen] at this
            constructor
            · omega
            · have hmax : max (boxes.length + 1) maxColors = maxColors := by omega
              rw [hmax] at this
              omega
    · rw [if_neg hlt] at h
      cases h
      exact ⟨le_refl _, le_max_left _ _⟩

/-- C1 counterexample: two identical black pixels with `maxColors = 2`
produce a palette of length 2 (the quantizer happily splits a
zero-range bucket and emits the same average twice), exceeding the single
distinct input colour — the distinct-colour upper bound of the claim does
not hold. -/
theorem c1_counterexample_distinct_bound :
    (quantizeColorsMedianCut [[some (⟨0, 0, 0⟩ : Pixel), some ⟨0, 0, 0⟩]] 2).map
        (fun r => r.palette.length) = .ok 2 ∧
    (collectPixels [[some (⟨0, 0, 0⟩ : Pixel), some ⟨0, 0, 0⟩]]).dedup.length = 1 ∧
    ¬ ((2 : ℕ) ≤ 1) := by
  decide

/-- C1 (amended): for a non-empty colour population and `maxColors ≥ 1`,
whenever `quantizeColorsMedianCut` returns (it can throw for degenerate
populations, e.g. a single pixel with `maxColors ≥ 3`), the palette has
between 1 and `maxColors` entries.  The distinct-colour bound of the
original claim is dropped — palette entries can repeat. -/
theorem c1_palette_length_bounds (grid : List (List (Option Pixel))) (maxColors : ℕ)
    (hne : collectPixels grid ≠ []) (hmc : 1 ≤ maxColors) :
    ∀ res, quantizeColorsMedianCut grid maxColors = .ok res →
      1 ≤ res.palette.length ∧ res.palette.length ≤ maxColors := by
  intro res hres
  rw [quantizeColorsMedianCut] at hres
  rw [if_neg (by simpa using hne)] at hres
  cases hql : quantLoop maxColors 20 [(collectPixels grid).map some] with
  | error e => rw [hql, error_bind] at hres; exact Except.noConfusion hres
  | ok boxes =>
    rw [hql, ok_bind] at hres
    have hloop := quantLoop_ok_length maxColors 20 _ _ hql
    simp only [List.length_cons, List.length_nil] at hloop
    cases hpal : mapExcept (fun box => do
        let avgColor ← getAverageColor box
        Except.ok (⟨rgbToHex avgColor.r avgColor.g avgColor.b, ""⟩ : Entry)) boxes with
    | error e => rw [hpal, error_bind] at hres; exact Except.noConfusion hres
    | ok palette =>
      rw [hpal, ok_bind] at hres
      simp only [] at hres
      cases hout : mapExcept (buildRow palette (grid.headD []).length) grid with
      | error e => rw [hout, error_bind] at hres; exact Except.noConfusion hres
      | ok out =>
        rw [hout, ok_bind] at hres
        cases hres
        have hplen : palette.length = boxes.length := mapExcept_ok_length hpal
        simp only [hplen]
        omega

/-- C1 witness: a red/blue two-pixel grid with `maxColors = 2`. -/
theorem c1_palette_length_bounds_witness :
    collectPixels [[some (⟨255, 0, 0⟩ : Pixel), some ⟨0, 0, 255⟩]] ≠ [] ∧
    1 ≤ 2 ∧
    (∀ res, quantizeColorsMedianCut [[some (⟨255, 0, 0⟩ : Pixel), some ⟨0, 0, 255⟩]] 2 =
        .ok res → 1 ≤ res.palette.length ∧ res.palette.length ≤ 2) :=
  ⟨by decide, by decide,
    c1_palette_length_bounds [[some ⟨255, 0, 0⟩, some ⟨0, 0, 255⟩]] 2 (by decide) (by decide)⟩

theorem collectPixels_eq_nil_of_all_none :
    ∀ (grid : List (List (Option Pixel))),
      (∀ row ∈ grid, ∀ c ∈ row, c = none) → collectPixels grid = [] := by
  intro grid
  induction grid with
  | nil => intro _; rfl
  | cons row rest ih =>
    intro hnull
    rw [collectPixels, List.flatMap_cons]
    have h1 : row.filterMap id = [] := by
      apply List.filterMap_eq_nil_iff.mpr
      intro c hc
      simp [hnull row (List.mem_cons_self _ _) c hc]
    rw [h1, List.nil_append]
    exact ih (fun r hr c hc => hnull r (List.mem_cons_of_mem _ hr) c hc)

/-- C10: when every cell of the input grid is `null` the colour population
is empty, and `quantizeColorsMedianCut` returns — for every `maxColors` —
the input grid itself (an all-`null` grid of the same shape) together with
the one-entry default palette `[{hex: '#ffffff', label: 'White'}]`. -/
theorem c10_all_null_default_palette (grid : List (List (Option Pixel))) (maxColors : ℕ)
    (hnull : ∀ row ∈ grid, ∀ c ∈ row, c = none) :
    quantizeColorsMedianCut grid maxColors =
      .ok ⟨grid.map (fun row => row.map (fun _ => none)), [⟨"#ffffff", "White"⟩]⟩ ∧
    grid.map (fun row => row.map (fun _ => (none : Option Pixel))) = grid := by
  have hgrid : grid.map (fun row => row.map (fun _ => (none : Option Pixel))) = grid := by
    have hrow : ∀ row ∈ grid, row.map (fun _ => (none : Option Pixel)) = row := by
      intro row hrow
      have : ∀ c ∈ row, (fun _ => (none : Option Pixel)) c = id c := by
        intro c hc
        simp [hnull row hrow c hc]
      rw [List.map_congr_left this, List.map_id]
    rw [List.map_congr_left (by intro row h; simp [hrow row h] : ∀ row ∈ grid,
      (fun r => r.map (fun _ => (none : Option Pixel))) row = id row), List.map_id]
  constructor
  · rw [quantizeColorsMedianCut]
    rw [if_pos (by rw [collectPixels_eq_nil_of_all_none grid hnull]; rfl)]
  · exact hgrid

/-- C10 witness: a 2×2 all-`null` grid with `maxColors = 7`. -/
theorem c10_all_null_default_palette_witness :
    (∀ row ∈ ([[none, none], [none, none]] : List (List (Option Pixel))),
      ∀ c ∈ row, c = none) ∧
    (quantizeColorsMedianCut ([[none, none], [none, none]] :
        List (List (Option Pixel))) 7 =
      .ok ⟨([[none, none], [none, none]] : List (List (Option Pixel))).map
            (fun row => row.map (fun _ => none)), [⟨"#ffffff", "White"⟩]⟩ ∧
      ([[none, none], [none, none]] : List (List (Option Pixel))).map
          (fun row => row.map (fun _ => (none : Option Pixel))) =
        [[none, none], [none, none]]) :=
  ⟨by decide, c10_all_null_default_palette [[none, none], [none, none]] 7 (by decide)⟩

/-- C7: a parsed request whose `targetWidth` or `targetHeight` lies outside
`[4, 80]`, or whose `maxColors` lies outside `[2, 12]`, is rejected by
`handleProcessImage` with a validation notification before either
strategy runs: the outcome is a `rejected` message and in particular is
neither a worker post (no resize/quantize in the worker) nor a fallback
run (no `resizeImageNearestNeighbor` / `quantizeColorsMedianCut` call). -/
theorem c7_out_of_range_rejected_before_pipeline (img : Option Bitmap)
    (targetWidth targetHeight maxColors detailBoost : ℤ) (resizeMode : String)
    (usePaletteLock enableDithering autoTemplateMode : Bool)
    (statePalette : List String) (workerReady : Bool)
    (hbad : targetWidth < 4 ∨ targetHeight < 4 ∨ targetWidth > 80 ∨ targetHeight > 80 ∨
      maxColors < 2 ∨ maxColors > 12) :
    ∃ m, handleProcessImage img (some targetWidth) (some targetHeight) (some maxColors)
        detailBoost resizeMode usePaletteLock enableDithering autoTemplateMode
        statePalette workerReady = .rejected m ∧
      (∀ req, handleProcessImage img (some targetWidth) (some targetHeight) (some maxColors)
        detailBoost resizeMode usePaletteLock enableDithering autoTemplateMode
        statePalette workerReady ≠ .workerRequest req) ∧
      (∀ r, handleProcessImage img (some targetWidth) (some targetHeight) (some maxColors)
        detailBoost resizeMode usePaletteLock enableDithering autoTemplateMode
        statePalette workerReady ≠ .fallback r) := by
  cases img with
  | none =>
    refine ⟨"Please upload an image first.", rfl, ?_, ?_⟩ <;>
      intro x h <;> exact ProcessOutcome.noConfusion h
  | some bmp =>
    by_cases hdim : targetWidth < 4 ∨ targetHeight < 4 ∨ targetWidth > 80 ∨ targetHeight > 80
    · refine ⟨"Grid size must be between 4 and 80.", ?_, ?_, ?_⟩
      · rw [handleProcessImage, if_pos hdim]
      · intro x h
        rw [handleProcessImage, if_pos hdim] at h
        exact ProcessOutcome.noConfusion h
      · intro x h
        rw [handleProcessImage, if_pos hdim] at h
        exact ProcessOutcome.noConfusion h
    · have hcol : maxColors < 2 ∨ maxColors > 12 := by tauto
      refine ⟨"Max colors must be between 2 and 12.", ?_, ?_, ?_⟩
      · rw [handleProcessImage, if_neg hdim, if_pos hcol]
      · intro x h
        rw [handleProcessImage, if_neg hdim, if_pos hcol] at h
        exact ProcessOutcome.noConfusion h
      · intro x h
        rw [handleProcessImage, if_neg hdim, if_pos hcol] at h
        exact ProcessOutcome.noConfusion h

/-- C7 witness: a 100×4 request (width out of range) with a loaded 1×1
image and `maxColors = 5`. -/
theorem c7_out_of_range_rejected_before_pipeline_witness :
    ((100 : ℤ) < 4 ∨ (4 : ℤ) < 4 ∨ (100 : ℤ) > 80 ∨ (4 : ℤ) > 80 ∨
      (5 : ℤ) < 2 ∨ (5 : ℤ) > 12) ∧
    (∃ m, handleProcessImage (some ⟨1, 1, [0, 0, 0, 255]⟩) (some 100) (some 4) (some 5)
        0 "fill" false false false [] true = .rejected m ∧
      (∀ req, handleProcessImage (some ⟨1, 1, [0, 0, 0, 255]⟩) (some 100) (some 4) (some 5)
        0 "fill" false false false [] true ≠ .workerRequest req) ∧
      (∀ r, handleProcessImage (some ⟨1, 1, [0, 0, 0, 255]⟩) (some 100) (some 4) (some 5)
        0 "fill" false false false [] true ≠ .fallback r)) :=
  ⟨by decide,
    c7_out_of_range_rejected_before_pipeline (some ⟨1, 1, [0, 0, 0, 255]⟩) 100 4 5 0 "fill"
      false false false [] true (by decide)⟩

/-- C8: `hexToRgb` characterization.  When the input (after the optional
leading `#`) is exactly six case-insensitive hex digits, the result is the
three parsed channel bytes `16·h₁+h₂ / 16·h₃+h₄ / 16·h₅+h₆`; for every
other (malformed) string the result is white `{255, 255, 255}`. -/
theorem c8_hexToRgb_parse_or_white (s : String) :
    (validHexChars (stripHash s.toList) = true →
      ∃ c1 c2 c3 c4 c5 c6, stripHash s.toList = [c1, c2, c3, c4, c5, c6] ∧
        hexToRgb s = ⟨16 * hexVal c1 + hexVal c2, 16 * hexVal c3 + hexVal c4,
          16 * hexVal c5 + hexVal c6⟩) ∧
    (validHexChars (stripHash s.toList) = false → hexToRgb s = ⟨255, 255, 255⟩) := by
  rcases hcs : stripHash s.toList with - |
    ⟨c1, - | ⟨c2, - | ⟨c3, - | ⟨c4, - | ⟨c5, - | ⟨c6, - | ⟨c7, rest⟩⟩⟩⟩⟩⟩⟩ <;>
    constructor <;> intro hv
  case cons.cons.cons.cons.cons.cons.nil.left =>
    refine ⟨c1, c2, c3, c4, c5, c6, rfl, ?_⟩
    rw [validHexChars] at hv
    rw [hexToRgb, hcs]
    simp [hv]
  case cons.cons.cons.cons.cons.cons.nil.right =>
    rw [validHexChars] at hv
    rw [hexToRgb, hcs]
    simp [hv]
  all_goals first
    | (rw [hexToRgb, hcs]; done)
    | (simp [validHexChars] at hv)

/-- C8 witness: a well-formed mixed-case hex string. -/
theorem c8_hexToRgb_parse_or_white_witness :
    validHexChars (stripHash "#0fA9Cd".toList) = true ∧
    (∃ c1 c2 c3 c4 c5 c6, stripHash "#0fA9Cd".toList = [c1, c2, c3, c4, c5, c6] ∧
      hexToRgb "#0fA9Cd" = ⟨16 * hexVal c1 + hexVal c2, 16 * hexVal c3 + hexVal c4,
        16 * hexVal c5 + hexVal c6⟩) :=
  ⟨by decide, (c8_hexToRgb_parse_or_white "#0fA9Cd").1 (by decide)⟩

/-- C6 counterexample: on the 2×2 red/red/blue/blue scenario with
`maxColors = 2` the fallback pipeline's palette is `["#0000ff", "#ff0000"]`
— blue first, because red pixels (value ≥ the midpoint 127.5 of the red
channel) go to the *second* sub-bucket — not `[red-ish, blue-ish]` as the
claim orders it. -/
theorem c6_counterexample_palette_order :
    (processImageFallback ⟨2, 2, [255, 0, 0, 255, 255, 0, 0, 255,
        0, 0, 255, 255, 0, 0, 255, 255]⟩ 2 2 2).map
      (fun r => r.palette.map Entry.hex) = .ok ["#0000ff", "#ff0000"] ∧
    (["#0000ff", "#ff0000"] : List String) ≠ ["#ff0000", "#0000ff"] := by
  decide

/-- C6 (amended): the 2×2 scenario end to end — the output grid is
`[[red, red], [blue, blue]]` with the exact input colours as claimed, and
the palette holds exactly the two input colours, but in the order
`[#0000ff, #ff0000]` (blue first). -/
theorem c6_end_to_end_2x2_scenario :
    processImageFallback ⟨2, 2, [255, 0, 0, 255, 255, 0, 0, 255,
        0, 0, 255, 255, 0, 0, 255, 255]⟩ 2 2 2 =
      .ok ⟨[[some "#ff0000", some "#ff0000"], [some "#0000ff", some "#0000ff"]], 2, 2,
        [⟨"#0000ff", ""⟩, ⟨"#ff0000", ""⟩]⟩ := by
  decide

/-- C4 counterexample: a request with `usePaletteLock = true` and a
non-empty locked palette `["#ff0000", "#0000ff"]`, processed while the
worker is unavailable, runs `processImageFallback` — which receives only
the three numeric arguments — and returns the computed median-cut palette
`["#00ff00", "#00ff00"]` of the all-green source, not the locked list. -/
theorem c4_counterexample_fallback_ignores_lock :
    (match handleProcessImage
        (some ⟨2, 2, [0, 255, 0, 255, 0, 255, 0, 255, 0, 255, 0, 255, 0, 255, 0, 255]⟩)
        (some 4) (some 4) (some 2) 0 "fill" true false false
        ["#ff0000", "#0000ff"] false with
      | .fallback (.ok r) => some (r.palette.map Entry.hex)
      | _ => none) = some ["#00ff00", "#00ff00"] ∧
    (["#00ff00", "#00ff00"] : List String) ≠ ["#ff0000", "#0000ff"] := by
  decide

/-- C4 (amended): the locked palette is honoured on the worker strategy
only.  When the worker is ready, `handleProcessImage` forwards the state
palette untouched as `lockedPalette` in the posted request, and the
worker's `quantizeColorsOptimized` returns a locked palette verbatim —
unmutated and in order — as the result palette; the synchronous fallback
(see the counterexample) ignores the lock. -/
theorem c4_locked_palette_forwarded_and_returned_verbatim :
    (∀ (img : Bitmap) (w h c db : ℤ) (rm : String) (ed atm : Bool) (sp : List String),
      sp ≠ [] → ¬ (w < 4 ∨ h < 4 ∨ w > 80 ∨ h > 80) → ¬ (c < 2 ∨ c > 12) →
      handleProcessImage (some img) (some w) (some h) (some c) db rm true ed atm sp true =
        .workerRequest ⟨img, w, h, c, db, rm, true, some sp, ed, atm⟩) ∧
    (∀ (pixels : List ℕ) (mc : ℕ) (db : ℤ) (ed : Bool) (lp : List String),
      lp ≠ [] →
      ∀ res, Worker.quantizeColorsOptimized pixels mc db ed true (some lp) = .ok res →
        res.palette = lp) := by
  constructor
  · intro img w h c db rm ed atm sp hsp hw hc
    rw [handleProcessImage, if_neg hw, if_neg hc]
    simp [List.length_pos.mpr hsp]
  · intro pixels mc db ed lp hlp res hres
    rw [Worker.quantizeColorsOptimized] at hres
    have hcond : (true = true ∧ ((some lp).getD []).length > 0 ∧ (some lp).isSome) :=
      ⟨rfl, by simpa using List.length_pos.mpr hlp, rfl⟩
    rw [if_pos hcond] at hres
    cases ed with
    | false =>
      simp only [Bool.false_eq_true, if_false] at hres
      cases hres
      rfl
    | true =>
      simp only [if_true] at hres
      cases hd : Worker.mapPixelsWithDithering pixels ((some lp).getD [])
          (Nat.sqrt (pixels.length / 4)) with
      | error e => rw [hd, error_bind] at hres; exact Except.noConfusion hres
      | ok grid =>
        rw [hd, ok_bind] at hres
        cases hres
        rfl

/-- C4 witness: a concrete locked-palette request on the worker path, and
the worker quantizer honouring a concrete one-entry locked palette. -/
theorem c4_locked_palette_forwarded_and_returned_verbatim_witness :
    (["#ff0000"] : List String) ≠ [] ∧
    ¬ ((4 : ℤ) < 4 ∨ (4 : ℤ) < 4 ∨ (4 : ℤ) > 80 ∨ (4 : ℤ) > 80) ∧
    ¬ ((2 : ℤ) < 2 ∨ (2 : ℤ) > 12) ∧
    handleProcessImage (some ⟨1, 1, [0, 255, 0, 255]⟩) (some 4) (some 4) (some 2)
        0 "fill" true false false ["#ff0000"] true =
      .workerRequest ⟨⟨1, 1, [0, 255, 0, 255]⟩, 4, 4, 2, 0, "fill", true,
        some ["#ff0000"], false, false⟩ ∧
    (∀ res, Worker.quantizeColorsOptimized [0, 255, 0, 255] 2 0 false true
        (some ["#ff0000"]) = .ok res → res.palette = ["#ff0000"]) :=
  ⟨by decide, by decide, by decide,
    c4_locked_palette_forwarded_and_returned_verbatim.1 ⟨1, 1, [0, 255, 0, 255]⟩ 4 4 2 0
      "fill" false false ["#ff0000"] (by decide) (by decide) (by decide),
    c4_locked_palette_forwarded_and_returned_verbatim.2 [0, 255, 0, 255] 2 0 false
      ["#ff0000"] (by decide)⟩

/-! ## Lemmas for the output-grid invariants -/

theorem getD_set_self {α : Type} (l : List α) (i : ℕ) (v d : α) (h : i < l.length) :
    (l.set i v).getD i d = v := by
  rw [List.getD_eq_getElem?_getD, List.getElem?_set]
  simp [h]

theorem getD_set_ne {α : Type} (l : List α) {i j : ℕ} (v d : α) (h : i ≠ j) :
    (l.set i v).getD j d = l.getD j d := by
  rw [List.getD_eq_getElem?_getD, List.getElem?_set, if_neg h, ← List.getD_eq_getElem?_getD]

theorem getD_replicate_self {α : Type} (n i : ℕ) (d : α) :
    (List.replicate n d).getD i d = d := by
  rw [List.getD_eq_getElem?_getD]
  rcases lt_or_ge i n with h | h
  · rw [List.getElem?_eq_getElem (by simpa using h)]
    simp [List.getElem_replicate]
  · rw [List.getElem?_eq_none (by simpa using h)]
    rfl

/-- A grid cell read: `grid[y][x]`, `none` out of bounds (matching how
every consumer of these grids treats missing cells). -/
def cellAt {α : Type} (g : List (List (Option α))) (y x : ℕ) : Option α :=
  (g.getD y []).getD x none

/-- The nearest-colour scan returns the hex of one of the palette
entries. -/
theorem nearestPaletteHex_mem {px : Pixel} {palette : List Entry} {hex : String}
    (h : nearestPaletteHex px palette = .ok hex) : hex ∈ palette.map Entry.hex := by
  cases palette with
  | nil => exact Except.noConfusion h
  | cons p0 t =>
    rw [nearestPaletteHex] at h
    have hmem : ∀ (l : List Entry) (st : String × Option ℤ),
        st.1 ∈ (p0 :: t).map Entry.hex → (∀ e ∈ l, e.hex ∈ (p0 :: t).map Entry.hex) →
        (l.foldl (fun (st : String × Option ℤ) (e : Entry) =>
          let dist := distSq px (hexToRgb e.hex)
          match st.2 with
          | none => (e.hex, some dist)
          | some m => if dist < m then (e.hex, some dist) else st) st).1 ∈
            (p0 :: t).map Entry.hex := by
      intro l
      induction l with
      | nil => intro st hst _; exact hst
      | cons e rest ih =>
        intro st hst hl
        simp only [List.foldl]
        apply ih
        · cases hst2 : st.2 with
          | none => exact hl e (List.mem_cons_self _ _)
          | some m =>
            by_cases hd : distSq px (hexToRgb e.hex) < m
            · simp only [hst2, if_pos hd]
              exact hl e (List.mem_cons_self _ _)
            · simp only [hst2, if_neg hd]
              exact hst
        · exact fun e' he' => hl e' (List.mem_cons_of_mem _ he')
    have := hmem (p0 :: t) (p0.hex, none) (by simp) (fun e he => List.mem_map_of_mem _ he)
    cases h
    exact this

theorem mapExcept_ok_getD {f : α → Except Unit β} :
    ∀ {l : List α} {res : List β}, mapExcept f l = .ok res →
      ∀ (i : ℕ) (d₁ : α) (d₂ : β), i < l.length → f (l.getD i d₁) = .ok (res.getD i d₂) := by
  intro l
  induction l with
  | nil => intro res h i d₁ d₂ hi; cases hi
  | cons a as ih =>
    intro res h i d₁ d₂ hi
    simp only [mapExcept] at h
    cases h1 : f a with
    | error e => rw [h1, error_bind] at h; exact Except.noConfusion h
    | ok b =>
      rw [h1, ok_bind] at h
      cases h2 : mapExcept f as with
      | error e => rw [h2, error_bind] at h; exact Except.noConfusion h
      | ok bs =>
        rw [h2, ok_bind] at h
        cases h
        cases i with
        | zero => simpa using h1
        | succ i =>
          simp only [List.getD_cons_succ]
          exact ih h2 i d₁ d₂ (by simpa using hi)

theorem jsSet_lt (l : List (Option String)) (i : ℕ) (v : Option String)
    (h : i < l.length) : jsSet l i v = l.set i v := by
  rw [jsSet, if_pos h]

/-- Row-fold invariant: folding `buildRowStep` over the enumerated cells
`enumFrom k row` of a row that stays within the bounds of `out` preserves
the length, leaves indices below `k` alone, and sets index `k + j` to the
nearest palette colour of cell `j` when that cell is truthy and leaves it
alone when the cell is `null`. -/
theorem buildRow_fold_spec (palette : List Entry) :
    ∀ (row : List (Option Pixel)) (k : ℕ) (out : List (Option String)),
      k + row.length ≤ out.length →
      ∀ res, foldlExcept (buildRowStep palette) out (List.enumFrom k row) = .ok res →
        res.length = out.length ∧
        (∀ i, i < k → res.getD i none = out.getD i none) ∧
        (∀ j, j < row.length →
          (row.getD j none = none → res.getD (k + j) none = out.getD (k + j) none) ∧
          (∀ px, row.getD j none = some px →
            ∃ hex, nearestPaletteHex px palette = .ok hex ∧
              res.getD (k + j) none = some hex)) := by
  intro row
  induction row with
  | nil =>
    intro k out hb res h
    rw [List.enumFrom] at h
    rw [foldlExcept] at h
    cases h
    exact ⟨rfl, fun i _ => rfl, fun j hj => absurd hj (by simp)⟩
  | cons c rest ih =>
    intro k out hb res h
    rw [List.enumFrom_cons, foldlExcept] at h
    cases c with
    | none =>
      rw [show buildRowStep palette out (k, none) = .ok out from rfl, ok_bind] at h
      obtain ⟨hlen, hlow, hcells⟩ := ih (k + 1) out (by simp at hb ⊢; omega) res h
      refine ⟨hlen, fun i hi => hlow i (by omega), fun j hj => ?_⟩
      cases j with
      | zero =>
        refine ⟨fun _ => hlow k (by omega), fun px hpx => ?_⟩
        simp at hpx
      | succ j =>
        have heq : k + (j + 1) = k + 1 + j := by omega
        rw [List.getD_cons_succ, heq]
        exact hcells j (by simpa using hj)
    | some px =>
      rw [show buildRowStep palette out (k, some px) =
        (nearestPaletteHex px palette) >>= fun hex => Except.ok (jsSet out k (some hex))
        from rfl] at h
      cases hn : nearestPaletteHex px palette with
      | error e => rw [hn, error_bind] at h; exact Except.noConfusion h
      | ok hex =>
        rw [hn, ok_bind, ok_bind] at h
        have hk : k < out.length := by simp at hb; omega
        rw [jsSet_lt out k (some hex) hk] at h
        obtain ⟨hlen, hlow, hcells⟩ := ih (k + 1) (out.set k (some hex))
          (by simp at hb ⊢; omega) res h
        rw [List.length_set] at hlen
        refine ⟨hlen, ?_, fun j hj => ?_⟩
        · intro i hi
          rw [hlow i (by omega), getD_set_ne out (some hex) none (by omega)]
        · cases j with
          | zero =>
            refine ⟨fun hc => by simp at hc, fun px' hpx' => ?_⟩
            have hpx'' : px = px' := by simpa using hpx'
            subst hpx''
            refine ⟨hex, hn, ?_⟩
            show res.getD k none = some hex
            rw [hlow k (by omega), getD_set_self out k (some hex) none hk]
          | succ j =>
            have heq : k + (j + 1) = k + 1 + j := by omega
            rw [List.getD_cons_succ, heq]
            have hc := hcells j (by simpa using hj)
            refine ⟨fun hnone => ?_, hc.2⟩
            rw [hc.1 hnone, getD_set_ne out (some hex) none (by omega)]

/-- `buildRow` on a row of exactly `cols` cells: the output row has `cols`
cells, `null` cells stay `null`, and truthy cells hold the nearest palette
hex. -/
theorem buildRow_ok_spec (palette : List Entry) (cols : ℕ) (row : List (Option Pixel))
    (hlen : row.length = cols) {out : List (Option String)}
    (h : buildRow palette cols row = .ok out) :
    out.length = cols ∧
    ∀ x, x < cols →
      (row.getD x none = none → out.getD x none = none) ∧
      (∀ px, row.getD x none = some px →
        ∃ hex, nearestPaletteHex px palette = .ok hex ∧ out.getD x none = some hex) := by
  rw [buildRow] at h
  rw [show row.enum = List.enumFrom 0 row from rfl] at h
  obtain ⟨hlen', _, hcells⟩ := buildRow_fold_spec palette row 0 (List.replicate cols none)
    (by simp [hlen]) out h
  constructor
  · rw [hlen', List.length_replicate]
  · intro x hx
    have hx' : x < row.length := by omega
    have := hcells x hx'
    rw [Nat.zero_add] at this
    exact ⟨fun hc => by rw [this.1 hc, getD_replicate_self], this.2⟩

theorem mem_collectPixels (grid : List (List (Option Pixel))) (p : Pixel) :
    p ∈ collectPixels grid ↔ ∃ row ∈ grid, some p ∈ row := by
  rw [collectPixels]
  simp [List.mem_flatMap, List.mem_filterMap]

theorem all_none_of_collectPixels_eq_nil {grid : List (List (Option Pixel))}
    (h : collectPixels grid = []) : ∀ row ∈ grid, ∀ c ∈ row, c = none := by
  intro row hrow c hc
  cases c with
  | none => rfl
  | some p =>
    have hmem : p ∈ collectPixels grid := (mem_collectPixels grid p).mpr ⟨row, hrow, hc⟩
    rw [h] at hmem
    exact absurd hmem (List.not_mem_nil p)

theorem cellAt_map_none (grid : List (List (Option Pixel))) (y x : ℕ) :
    cellAt (grid.map (fun row => row.map (fun _ => (none : Option String)))) y x = none := by
  rw [cellAt]
  have h1 : (grid.map (fun row => row.map (fun _ => (none : Option String)))).getD y [] =
      (grid.getD y []).map (fun _ => none) := by
    rw [List.getD_eq_getElem?_getD, List.getD_eq_getElem?_getD, List.getElem?_map]
    cases grid[y]? with
    | none => rfl
    | some row => rfl
  rw [h1, List.getD_eq_getElem?_getD, List.getElem?_map]
  cases (grid.getD y [])[x]? with
  | none => rfl
  | some c => rfl

theorem cellAt_none_of_all_none {grid : List (List (Option Pixel))}
    (hnull : ∀ row ∈ grid, ∀ c ∈ row, c = none) (y x : ℕ) :
    cellAt grid y x = none := by
  rw [cellAt]
  cases hgy : grid[y]? with
  | none =>
    have h1 : grid.getD y [] = [] := by
      rw [List.getD_eq_getElem?_getD, hgy]
      rfl
    rw [h1]
    rfl
  | some row =>
    have h1 : grid.getD y [] = row := by
      rw [List.getD_eq_getElem?_getD, hgy]
      rfl
    rw [h1, List.getD_eq_getElem?_getD]
    cases hrx : row[x]? with
    | none => rfl
    | some c =>
      have hrow : row ∈ grid := List.getElem?_mem hgy
      have hc : c ∈ row := List.getElem?_mem hrx
      simp [hnull row hrow c hc]

/-- C9 counterexample: `quantizeColorsMedianCut` can fail to produce any
output grid at all — a single opaque pixel with `maxColors = 3` makes the
loop split an empty bucket, `Array.pop()` of the empty sibling pushes
`undefined` into a box, and `getAverageColor` then throws reading
`pixel.r` (a `TypeError` in JS, `Except.error` here). -/
theorem c9_counterexample_crash :
    quantizeColorsMedianCut [[some (⟨0, 0, 0⟩ : Pixel)]] 3 = .error () := by
  decide

/-- Output-grid invariants of a successful `quantizeColorsMedianCut` on a
rectangular grid: same dimensions, `null` cells preserved both ways, and
every non-`null` output cell is the hex of a palette entry. -/
theorem quantize_output_spec (grid : List (List (Option Pixel)))
    (maxColors : ℕ) (hrect : ∀ row ∈ grid, row.length = (grid.headD []).length) :
    ∀ res, quantizeColorsMedianCut grid maxColors = .ok res →
      res.pixelData.length = grid.length ∧
      (∀ row ∈ res.pixelData, row.length = (grid.headD []).length) ∧
      (∀ y x, y < grid.length → x < (grid.headD []).length →
        (cellAt grid y x = none ↔ cellAt res.pixelData y x = none)) ∧
      (∀ y x hex, cellAt res.pixelData y x = some hex →
        hex ∈ res.palette.map Entry.hex) := by
  intro res hres
  rw [quantizeColorsMedianCut] at hres
  by_cases hempty : (collectPixels grid).length = 0
  · rw [if_pos hempty] at hres
    cases hres
    have hnull := all_none_of_collectPixels_eq_nil (List.length_eq_zero.mp hempty)
    refine ⟨by simp, ?_, ?_, ?_⟩
    · intro row hrow
      obtain ⟨orig, horig, rfl⟩ := List.mem_map.mp hrow
      simp [hrect orig horig]
    · intro y x hy hx
      exact ⟨fun _ => cellAt_map_none grid y x, fun _ => cellAt_none_of_all_none hnull y x⟩
    · intro y x hex hcell
      rw [cellAt_map_none grid y x] at hcell
      exact Option.noConfusion hcell
  · rw [if_neg hempty] at hres
    cases hql : quantLoop maxColors 20 [(collectPixels grid).map some] with
    | error e => rw [hql, error_bind] at hres; exact Except.noConfusion hres
    | ok boxes =>
      rw [hql, ok_bind] at hres
      cases hpal : mapExcept (fun box => do
          let avgColor ← getAverageColor box
          Except.ok (⟨rgbToHex avgColor.r avgColor.g avgColor.b, ""⟩ : Entry)) boxes with
      | error e => rw [hpal, error_bind] at hres; exact Except.noConfusion hres
      | ok palette =>
        rw [hpal, ok_bind] at hres
        simp only [] at hres
        cases hout : mapExcept (buildRow palette (grid.headD []).length) grid with
        | error e => rw [hout, error_bind] at hres; exact Except.noConfusion hres
        | ok out =>
          rw [hout, ok_bind] at hres
          cases hres
          show out.length = grid.length ∧
            (∀ row ∈ out, row.length = (grid.headD []).length) ∧
            (∀ y x, y < grid.length → x < (grid.headD []).length →
              (cellAt grid y x = none ↔ cellAt out y x = none)) ∧
            (∀ y x hex, cellAt out y x = some hex → hex ∈ palette.map Entry.hex)
          have holen : out.length = grid.length := mapExcept_ok_length hout
          have hrowspec : ∀ y, y < grid.length →
              buildRow palette (grid.headD []).length (grid.getD y []) =
                .ok (out.getD y []) :=
            fun y hy => mapExcept_ok_getD hout y [] [] hy
          have hrowlen : ∀ y, y < grid.length →
              (grid.getD y []).length = (grid.headD []).length := by
            intro y hy
            apply hrect
            rw [List.getD_eq_getElem _ _ hy]
            exact List.getElem_mem _
          refine ⟨holen, ?_, ?_, ?_⟩
          · intro row hrow
            obtain ⟨y, hy, rfl⟩ := List.mem_iff_getElem.mp hrow
            have hy' : y < grid.length := by omega
            have := buildRow_ok_spec palette _ _ (hrowlen y hy') (hrowspec y hy')
            rw [← List.getD_eq_getElem out [] hy]
            exact this.1
          · intro y x hy hx
            obtain ⟨holen', hcells⟩ :=
              buildRow_ok_spec palette _ _ (hrowlen y hy) (hrowspec y hy)
            have hc := hcells x hx
            rw [cellAt, cellAt]
            constructor
            · intro hnone
              exact hc.1 hnone
            · intro hnone
              cases hcase : (grid.getD y []).getD x none with
              | none => rfl
              | some px =>
                obtain ⟨hex, -, hhex⟩ := hc.2 px hcase
                rw [hhex] at hnone
                exact Option.noConfusion hnone
          · intro y x hex hcell
            rw [cellAt] at hcell
            by_cases hy : y < grid.length
            · obtain ⟨holen', hcells⟩ :=
                buildRow_ok_spec palette _ _ (hrowlen y hy) (hrowspec y hy)
              by_cases hx : x < (grid.headD []).length
              · have hc := hcells x hx
                cases hcase : (grid.getD y []).getD x none with
                | none =>
                  rw [hc.1 hcase] at hcell
                  exact Option.noConfusion hcell
                | some px =>
                  obtain ⟨hex', hnear, hhex⟩ := hc.2 px hcase
                  rw [hhex] at hcell
                  cases hcell
                  exact nearestPaletteHex_mem hnear
              · rw [List.getD_eq_getElem?_getD,
                  List.getElem?_eq_none (by rw [holen']; omega)] at hcell
                exact Option.noConfusion hcell
            · have hrow0 : out.getD y [] = [] := by
                rw [List.getD_eq_getElem?_getD, List.getElem?_eq_none (by omega)]
                rfl
              rw [hrow0] at hcell
              exact Option.noConfusion hcell

/-- C9 (amended): for every rectangular input grid and every `maxColors`,
whenever `quantizeColorsMedianCut` returns successfully, the output grid
has the input's dimensions, a cell is `null` in the output exactly when it
is `null` in the input, and every non-`null` output cell holds the hex of
some entry of the returned palette. -/
theorem c9_quantize_output_grid_invariants (grid : List (List (Option Pixel)))
    (maxColors : ℕ) (hrect : ∀ row ∈ grid, row.length = (grid.headD []).length) :
    ∀ res, quantizeColorsMedianCut grid maxColors = .ok res →
      res.pixelData.length = grid.length ∧
      (∀ row ∈ res.pixelData, row.length = (grid.headD []).length) ∧
      (∀ y x, y < grid.length → x < (grid.headD []).length →
        (cellAt grid y x = none ↔ cellAt res.pixelData y x = none)) ∧
      (∀ y x hex, cellAt res.pixelData y x = some hex →
        hex ∈ res.palette.map Entry.hex) :=
  quantize_output_spec grid maxColors hrect

/-- C9 witness: a 1×2 grid with one opaque red cell and one transparent
cell, `maxColors = 2`. -/
theorem c9_quantize_output_grid_invariants_witness :
    (∀ row ∈ ([[some (⟨255, 0, 0⟩ : Pixel), none]] : List (List (Option Pixel))),
      row.length =
        (([[some (⟨255, 0, 0⟩ : Pixel), none]] :
          List (List (Option Pixel))).headD []).length) ∧
    (∀ res, quantizeColorsMedianCut
        ([[some (⟨255, 0, 0⟩ : Pixel), none]] : List (List (Option Pixel))) 2 = .ok res →
      res.pixelData.length =
        ([[some (⟨255, 0, 0⟩ : Pixel), none]] : List (List (Option Pixel))).length ∧
      (∀ row ∈ res.pixelData, row.length =
        (([[some (⟨255, 0, 0⟩ : Pixel), none]] :
          List (List (Option Pixel))).headD []).length) ∧
      (∀ y x, y < ([[some (⟨255, 0, 0⟩ : Pixel), none]] :
            List (List (Option Pixel))).length →
          x < (([[some (⟨255, 0, 0⟩ : Pixel), none]] :
            List (List (Option Pixel))).headD []).length →
        (cellAt ([[some (⟨255, 0, 0⟩ : Pixel), none]] :
            List (List (Option Pixel))) y x = none ↔
          cellAt res.pixelData y x = none)) ∧
      (∀ y x hex, cellAt res.pixelData y x = some hex →
        hex ∈ res.palette.map Entry.hex)) :=
  ⟨by decide,
    c9_quantize_output_grid_invariants [[some ⟨255, 0, 0⟩, none]] 2 (by decide)⟩

/-! ## Lemmas for Floyd–Steinberg transparency (worker) -/

theorem distributeError_length (pixels : List ℕ) (width height : ℕ) (x y errR errG errB : ℤ)
    (weight : ℚ) :
    (Worker.distributeError pixels width height x y errR errG errB weight).length =
      pixels.length := by
  rw [Worker.distributeError]
  split_ifs
  · rfl
  · simp [List.length_set]

theorem distributeError_alpha (pixels : List ℕ) (width height : ℕ) (x y errR errG errB : ℤ)
    (weight : ℚ) (i : ℕ) (hi : i % 4 = 3) :
    (Worker.distributeError pixels width height x y errR errG errB weight).getD i 0 =
      pixels.getD i 0 := by
  rw [Worker.distributeError]
  split_ifs with hcond
  · rfl
  · push_neg at hcond
    obtain ⟨hx0, hxw, hy0, hyh⟩ := hcond
    have hnn : (0 : ℤ) ≤ (y * width + x) * 4 := by positivity
    have hmod : ((y * (width : ℤ) + x) * 4).toNat % 4 = 0 := by omega
    rw [getD_set_ne _ _ _ (by omega), getD_set_ne _ _ _ (by omega),
      getD_set_ne _ _ _ (by omega)]

/-- A transparent pixel's dithering step: emit `null`, leave the working
buffer untouched (distribute no error). -/
theorem ditherStep_transparent (palette : List String) (paletteRGB : List Pixel)
    (width height : ℕ) (buf : List ℕ) (outl : List (Option String)) (y x : ℕ)
    (ha : buf.getD ((y * width + x) * 4 + 3) 0 < 128) :
    Worker.ditherStep palette paletteRGB width height (buf, outl) (y, x) =
      .ok (buf, outl ++ [none]) := by
  rw [Worker.ditherStep]
  simp only []
  rw [if_pos ha]

/-- Any successful dithering step appends exactly one cell, keeps the
buffer length, never touches alpha bytes, and emits `null` at a position
that is transparent in the original bitmap. -/
theorem ditherStep_ok_spec (palette : List String) (paletteRGB : List Pixel)
    (width height : ℕ) (pixels buf : List ℕ) (outl : List (Option String)) (y x : ℕ)
    (hlen : buf.length = pixels.length)
    (halpha : ∀ i, i % 4 = 3 → buf.getD i 0 = pixels.getD i 0) :
    ∀ st', Worker.ditherStep palette paletteRGB width height (buf, outl) (y, x) = .ok st' →
      ∃ buf' cell, st' = (buf', outl ++ [cell]) ∧ buf'.length = pixels.length ∧
        (∀ i, i % 4 = 3 → buf'.getD i 0 = pixels.getD i 0) ∧
        (pixels.getD ((y * width + x) * 4 + 3) 0 < 128 → cell = none) := by
  intro st' h
  have ha_eq : buf.getD ((y * width + x) * 4 + 3) 0 =
      pixels.getD ((y * width + x) * 4 + 3) 0 := halpha _ (by omega)
  by_cases ha : buf.getD ((y * width + x) * 4 + 3) 0 < 128
  · rw [ditherStep_transparent palette paletteRGB width height buf outl y x ha] at h
    cases h
    exact ⟨buf, none, rfl, hlen, halpha, fun _ => rfl⟩
  · rw [Worker.ditherStep] at h
    simp only [] at h
    rw [if_neg ha] at h
    split at h
    · exact Except.noConfusion h
    · cases h
      refine ⟨_, _, rfl, ?_, ?_, ?_⟩
      · rw [distributeError_length, distributeError_length, distributeError_length,
          distributeError_length]
        exact hlen
      · intro i hi
        rw [distributeError_alpha _ _ _ _ _ _ _ _ _ i hi,
          distributeError_alpha _ _ _ _ _ _ _ _ _ i hi,
          distributeError_alpha _ _ _ _ _ _ _ _ _ i hi,
          distributeError_alpha _ _ _ _ _ _ _ _ _ i hi]
        exact halpha i hi
      · intro htr
        exact absurd (by rw [ha_eq]; exact htr) ha

/-- Row invariant of the dithering raster fold: processing the column list
`xs` of row `y` appends one output cell per column, preserves buffer
length and alpha bytes, and appends `null` for every column whose source
pixel is transparent. -/
theorem dither_row_spec (palette : List String) (paletteRGB : List Pixel)
    (width height : ℕ) (pixels : List ℕ) :
    ∀ (xs : List ℕ) (y : ℕ) (buf : List ℕ) (outl : List (Option String)),
      buf.length = pixels.length →
      (∀ i, i % 4 = 3 → buf.getD i 0 = pixels.getD i 0) →
      ∀ st', foldlExcept
          (fun st x => Worker.ditherStep palette paletteRGB width height st (y, x))
          (buf, outl) xs = .ok st' →
        st'.1.length = pixels.length ∧
        (∀ i, i % 4 = 3 → st'.1.getD i 0 = pixels.getD i 0) ∧
        ∃ tail, st'.2 = outl ++ tail ∧ tail.length = xs.length ∧
          (∀ j, j < xs.length →
            pixels.getD ((y * width + xs.getD j 0) * 4 + 3) 0 < 128 →
            tail.getD j none = none) := by
  intro xs
  induction xs with
  | nil =>
    intro y buf outl hlen halpha st' h
    rw [foldlExcept] at h
    cases h
    exact ⟨hlen, halpha, [], by simp, rfl, fun j hj => absurd hj (by simp)⟩
  | cons x xs' ih =>
    intro y buf outl hlen halpha st' h
    rw [foldlExcept] at h
    cases hstep : Worker.ditherStep palette paletteRGB width height (buf, outl) (y, x) with
    | error e => rw [hstep, error_bind] at h; exact Except.noConfusion h
    | ok st1 =>
      rw [hstep, ok_bind] at h
      obtain ⟨buf1, cell, rfl, hlen1, halpha1, hcell⟩ :=
        ditherStep_ok_spec palette paletteRGB width height pixels buf outl y x
          hlen halpha st1 hstep
      obtain ⟨hlen', halpha', tail', htail', hlen'', hcells'⟩ :=
        ih y buf1 (outl ++ [cell]) hlen1 halpha1 st' h
      refine ⟨hlen', halpha', cell :: tail', ?_, by simp [hlen''], ?_⟩
      · rw [htail']
        simp
      · intro j hj
        cases j with
        | zero =>
          intro htr
          simp only [List.getD_cons_zero]
          exact hcell (by simpa using htr)
        | succ j =>
          intro htr
          simp only [List.getD_cons_succ]
          exact hcells' j (by simpa using hj) (by simpa using htr)

/-- Whole-image invariant of the dithering raster fold: after processing
the row list `ys`, exactly `ys.length * width` cells have been appended,
and the cell of raster position `(ys[j], x)` — stored at offset
`j * width + x` — is `null` whenever the source pixel there is
transparent. -/
theorem dither_rows_spec (palette : List String) (paletteRGB : List Pixel)
    (width height : ℕ) (pixels : List ℕ) :
    ∀ (ys : List ℕ) (buf : List ℕ) (outl : List (Option String)),
      buf.length = pixels.length →
      (∀ i, i % 4 = 3 → buf.getD i 0 = pixels.getD i 0) →
      ∀ st', foldlExcept
          (fun st y => foldlExcept
            (fun st' x => Worker.ditherStep palette paletteRGB width height st' (y, x))
            st (List.range width))
          (buf, outl) ys = .ok st' →
        ∃ tail, st'.2 = outl ++ tail ∧ tail.length = ys.length * width ∧
          (∀ j x, j < ys.length → x < width →
            pixels.getD (((ys.getD j 0) * width + x) * 4 + 3) 0 < 128 →
            tail.getD (j * width + x) none = none) := by
  intro ys
  induction ys with
  | nil =>
    intro buf outl hlen halpha st' h
    rw [foldlExcept] at h
    cases h
    exact ⟨[], by simp, by simp, fun j x hj => absurd hj (by simp)⟩
  | cons y ys' ih =>
    intro buf outl hlen halpha st' h
    rw [foldlExcept] at h
    cases hrow : foldlExcept
        (fun st' x => Worker.ditherStep palette paletteRGB width height st' (y, x))
        (buf, outl) (List.range width) with
    | error e => rw [hrow, error_bind] at h; exact Except.noConfusion h
    | ok st1 =>
      rw [hrow, ok_bind] at h
      obtain ⟨hlen1, halpha1, tail0, htail0, htail0len, hcells0⟩ :=
        dither_row_spec palette paletteRGB width height pixels (List.range width) y
          buf outl hlen halpha st1 hrow
      obtain ⟨tail', htail', htail'len, hcells'⟩ := ih st1.1 st1.2 hlen1 halpha1 st' h
      refine ⟨tail0 ++ tail', ?_, ?_, ?_⟩
      · rw [htail', htail0, List.append_assoc]
      · simp only [List.length_append, htail'len, htail0len]
        simp [List.length_range, Nat.succ_mul, Nat.add_comm]
      · intro j x hj hx
        cases j with
        | zero =>
          intro htr
          have hx0 : x < tail0.length := by
            rw [htail0len]
            simpa using hx
          rw [Nat.zero_mul, Nat.zero_add, List.getD_append _ _ _ _ hx0]
          apply hcells0 x (by simpa using hx)
          have hrx : (List.range width).getD x 0 = x := by
            rw [List.getD_eq_getElem _ _ (by simpa using hx), List.getElem_range]
          rw [hrx]
          simpa using htr
        | succ j =>
          intro htr
          have hge : tail0.length ≤ (j + 1) * width + x := by
            rw [htail0len]
            simp only [List.length_range]
            calc width ≤ (j + 1) * width := by nlinarith
              _ ≤ (j + 1) * width + x := by omega
          rw [List.getD_append_right _ _ _ _ hge]
          have hidx : (j + 1) * width + x - tail0.length = j * width + x := by
            rw [htail0len]
            simp only [List.length_range]
            ring_nf
            omega
          rw [hidx]
          apply hcells' j x (by simpa using hj) hx
          simpa using htr

theorem getD_map_range {α : Type} (n i : ℕ) (f : ℕ → α) (d : α) (hi : i < n) :
    ((List.range n).map f).getD i d = f i := by
  rw [List.getD_eq_getElem _ _ (by simpa using hi), List.getElem_map, List.getElem_range]

/-- A destination cell whose sampled source pixel has alpha below 128 is
`null` in the resized grid. -/
theorem resize_transparent (img : Bitmap) (targetWidth targetHeight x y : ℕ)
    (hx : x < targetWidth) (hy : y < targetHeight)
    (ha : img.data.getD (((y * img.height / targetHeight) * img.width +
      x * img.width / targetWidth) * 4 + 3) 0 < 128) :
    cellAt (resizeImageNearestNeighbor img targetWidth targetHeight) y x = none := by
  rw [cellAt, resizeImageNearestNeighbor, getD_map_range targetHeight y _ [] hy,
    getD_map_range targetWidth x _ none hx]
  rw [if_pos ha]

/-- Transparency propagates through the whole fallback pipeline: the
output grid is `null` wherever the sampled source pixel is transparent. -/
theorem processImageFallback_transparent (img : Bitmap)
    (targetWidth targetHeight maxColors : ℕ) (res : ProcessedImageData)
    (hres : processImageFallback img targetWidth targetHeight maxColors = .ok res)
    (x y : ℕ) (hx : x < targetWidth) (hy : y < targetHeight)
    (ha : img.data.getD (((y * img.height / targetHeight) * img.width +
      x * img.width / targetWidth) * 4 + 3) 0 < 128) :
    cellAt res.pixelData y x = none := by
  rw [processImageFallback] at hres
  cases hq : quantizeColorsMedianCut (resizeImageNearestNeighbor img targetWidth targetHeight)
      maxColors with
  | error e => rw [hq, error_bind] at hres; exact Except.noConfusion hres
  | ok q =>
    rw [hq, ok_bind] at hres
    cases hres
    show cellAt q.pixelData y x = none
    have hlen : (resizeImageNearestNeighbor img targetWidth targetHeight).length =
        targetHeight := by
      simp [resizeImageNearestNeighbor]
    have hhd : (resizeImageNearestNeighbor img targetWidth targetHeight).headD [] =
        (resizeImageNearestNeighbor img targetWidth targetHeight).getD 0 [] := by
      cases resizeImageNearestNeighbor img targetWidth targetHeight <;> rfl
    have hhead : ((resizeImageNearestNeighbor img targetWidth targetHeight).headD []).length =
        targetWidth := by
      rw [hhd, resizeImageNearestNeighbor, getD_map_range targetHeight 0 _ [] (by omega)]
      simp
    have hrect : ∀ row ∈ resizeImageNearestNeighbor img targetWidth targetHeight,
        row.length =
          ((resizeImageNearestNeighbor img targetWidth targetHeight).headD []).length := by
      rw [hhead]
      intro row hrow
      rw [resizeImageNearestNeighbor] at hrow
      obtain ⟨i, hi, rfl⟩ := List.mem_map.mp hrow
      simp
    obtain ⟨-, -, hiff, -⟩ := quantize_output_spec _ maxColors hrect q hq
    exact (hiff y x (by omega) (by rw [hhead]; exact hx)).mp
      (resize_transparent img targetWidth targetHeight x y hx hy ha)

/-- Transparency in the worker's dithering pass: a transparent source
position yields `null` in the dithered grid, whatever errors were
diffused around it (alpha bytes are never modified by the error
bookkeeping). -/
theorem mapPixelsWithDithering_transparent (pixels : List ℕ) (palette : List String)
    (width height x y : ℕ) (grid : List (List (Option String)))
    (hw : 0 < width) (hwf : pixels.length = 4 * width * height)
    (hx : x < width) (hy : y < height)
    (ha : pixels.getD ((y * width + x) * 4 + 3) 0 < 128)
    (hok : Worker.mapPixelsWithDithering pixels palette width = .ok grid) :
    cellAt grid y x = none := by
  have hh : pixels.length / 4 / width = height := by
    rw [hwf, show 4 * width * height = 4 * (width * height) by ring,
      Nat.mul_div_cancel_left _ (by omega : 0 < 4),
      Nat.mul_div_cancel_left _ hw]
  rw [Worker.mapPixelsWithDithering] at hok
  rw [hh] at hok
  cases hfold : foldlExcept
      (fun st y => foldlExcept
        (fun st' x => Worker.ditherStep palette (palette.map Worker.hexToRgb)
          width height st' (y, x))
        st (List.range width))
      (pixels, ([] : List (Option String))) (List.range height) with
  | error e => rw [hfold, error_bind] at hok; exact Except.noConfusion hok
  | ok final =>
    rw [hfold, ok_bind] at hok
    cases hok
    obtain ⟨tail, htail, htaillen, hcells⟩ :=
      dither_rows_spec palette (palette.map Worker.hexToRgb) width height pixels
        (List.range height) pixels [] rfl (fun _ _ => rfl) final hfold
    show cellAt ((List.range height).map
      (fun y => ((final.2.drop (y * width)).take width))) y x = none
    rw [cellAt, getD_map_range height y _ [] hy, List.getD_eq_getElem?_getD,
      List.getElem?_take_of_lt hx, List.getElem?_drop, ← List.getD_eq_getElem?_getD,
      htail, List.nil_append]
    apply hcells y x (by simpa using hy) hx
    have hry : (List.range height).getD y 0 = y := by
      rw [List.getD_eq_getElem _ _ (by simpa using hy), List.getElem_range]
    rw [hry]
    exact ha

/-- C5: transparency propagation.  (1) A destination cell whose sampled
source pixel has alpha below 128 is `null` after
`resizeImageNearestNeighbor`; (2) the quantizer's input population holds
exactly the colours of non-`null` cells, so transparent cells contribute
nothing; (3) through the whole fallback pipeline such a position stays
`null` in the final output grid; (4) the dithering step at a transparent
pixel emits `null` and leaves the working buffer untouched (distributes
no error); (5) a transparent position comes out `null` from the whole
Floyd–Steinberg pass, regardless of error diffused near it (alpha bytes
are never modified). -/
theorem c5_transparency_propagation :
    (∀ (img : Bitmap) (targetWidth targetHeight x y : ℕ),
      x < targetWidth → y < targetHeight →
      img.data.getD (((y * img.height / targetHeight) * img.width +
        x * img.width / targetWidth) * 4 + 3) 0 < 128 →
      cellAt (resizeImageNearestNeighbor img targetWidth targetHeight) y x = none) ∧
    (∀ (grid : List (List (Option Pixel))) (p : Pixel),
      p ∈ collectPixels grid ↔ ∃ row ∈ grid, some p ∈ row) ∧
    (∀ (img : Bitmap) (targetWidth targetHeight maxColors : ℕ) (res : ProcessedImageData),
      processImageFallback img targetWidth targetHeight maxColors = .ok res →
      ∀ x y, x < targetWidth → y < targetHeight →
      img.data.getD (((y * img.height / targetHeight) * img.width +
        x * img.width / targetWidth) * 4 + 3) 0 < 128 →
      cellAt res.pixelData y x = none) ∧
    (∀ (palette : List String) (paletteRGB : List Pixel) (width height : ℕ)
      (buf : List ℕ) (outl : List (Option String)) (y x : ℕ),
      buf.getD ((y * width + x) * 4 + 3) 0 < 128 →
      Worker.ditherStep palette paletteRGB width height (buf, outl) (y, x) =
        .ok (buf, outl ++ [none])) ∧
    (∀ (pixels : List ℕ) (palette : List String) (width height x y : ℕ)
      (grid : List (List (Option String))),
      0 < width → pixels.length = 4 * width * height → x < width → y < height →
      pixels.getD ((y * width + x) * 4 + 3) 0 < 128 →
      Worker.mapPixelsWithDithering pixels palette width = .ok grid →
      cellAt grid y x = none) :=
  ⟨fun img tw th x y hx hy ha => resize_transparent img tw th x y hx hy ha,
   mem_collectPixels,
   fun img tw th mc res hres x y hx hy ha =>
     processImageFallback_transparent img tw th mc res hres x y hx hy ha,
   fun palette paletteRGB width height buf outl y x ha =>
     ditherStep_transparent palette paletteRGB width height buf outl y x ha,
   fun pixels palette width height x y grid hw hwf hx hy ha hok =>
     mapPixelsWithDithering_transparent pixels palette width height x y grid
       hw hwf hx hy ha hok⟩

/-- C5 witness: a 1×1 bitmap with a fully transparent pixel through the
fallback pipeline (target 2×2, `maxColors = 2`), and a transparent 1×1
buffer through the worker's dithering pass. -/
theorem c5_transparency_propagation_witness :
    (0 : ℕ) < 2 ∧ (0 : ℕ) < 2 ∧
    (⟨1, 1, [10, 20, 30, 0]⟩ : Bitmap).data.getD
      (((0 * (1 : ℕ) / 2) * 1 + 0 * (1 : ℕ) / 2) * 4 + 3) 0 < 128 ∧
    cellAt (resizeImageNearestNeighbor ⟨1, 1, [10, 20, 30, 0]⟩ 2 2) 0 0 = none ∧
    ((0 : ℕ) < 1 ∧ ([0, 0, 0, 0] : List ℕ).length = 4 * 1 * 1 ∧
      ([0, 0, 0, 0] : List ℕ).getD ((0 * 1 + 0) * 4 + 3) 0 < 128 ∧
      Worker.mapPixelsWithDithering [0, 0, 0, 0] [] 1 = .ok [[none]] ∧
      cellAt ([[none]] : List (List (Option String))) 0 0 = none) :=
  ⟨by decide, by decide, by decide,
    c5_transparency_propagation.1 ⟨1, 1, [10, 20, 30, 0]⟩ 2 2 0 0 (by decide) (by decide)
      (by decide),
    by decide, by decide, by decide, by decide,
    c5_transparency_propagation.2.2.2.2 [0, 0, 0, 0] [] 1 1 0 0 [[none]] (by decide)
      (by decide) (by decide) (by decide) (by decide) (by decide)⟩
